import Mathlib

/-!
# Wusul Go SDK: request signing and authenticated transport

A shallow embedding of `packages/go-sdk` (`auth.go`, `http_client.go`, `client.go`,
`access_passes.go`, `console.go`, the structs of `types.go` that they use) together with the
parts of the Go standard library that the SDK calls (`crypto/sha256`, `encoding/base64`,
`encoding/json`, `fmt`), followed by theorems about the embedded functions.

Go strings and byte slices are byte sequences, so both are lists of `UInt8`. A function that
returns `(value, error)` returns an `Except`; a function that fills `result` and returns an
`error` returns both as an `Outcome`. The network and the URL parser are parameters (`Env`).
Floating-point numbers are left out of the Go values that `json.Marshal` is given.
-/

namespace Wusul

/-! ## Strings -/

/-- A Go `string` (equally a `[]byte`): an arbitrary sequence of bytes. -/
abbrev GoString := List UInt8

/-- UTF-8 encoding of one code point (`utf8.AppendRune` on a valid rune). -/
def utf8EncodeRune (r : Nat) : List UInt8 :=
  if r < 128 then [UInt8.ofNat r]
  else if r < 2048 then [UInt8.ofNat (192 + r / 64), UInt8.ofNat (128 + r % 64)]
  else if r < 65536 then
    [UInt8.ofNat (224 + r / 4096), UInt8.ofNat (128 + r / 64 % 64), UInt8.ofNat (128 + r % 64)]
  else
    [UInt8.ofNat (240 + r / 262144), UInt8.ofNat (128 + r / 4096 % 64),
     UInt8.ofNat (128 + r / 64 % 64), UInt8.ofNat (128 + r % 64)]

/-- The bytes of a Go string literal (Go source text is UTF-8). -/
def lit (s : String) : GoString := s.data.flatMap (fun c => utf8EncodeRune c.toNat)

/-! ## crypto/sha256 (FIPS 180-4), on 32-bit words held as natural numbers -/

def rotr32 (x n : Nat) : Nat := ((x >>> n) ||| (x <<< (32 - n))) % 4294967296

def add32 (x y : Nat) : Nat := (x + y) % 4294967296

def ch (x y z : Nat) : Nat := (x &&& y) ^^^ ((x ^^^ 4294967295) &&& z)

def maj (x y z : Nat) : Nat := (x &&& y) ^^^ (x &&& z) ^^^ (y &&& z)

def bigSigma0 (x : Nat) : Nat := rotr32 x 2 ^^^ rotr32 x 13 ^^^ rotr32 x 22

def bigSigma1 (x : Nat) : Nat := rotr32 x 6 ^^^ rotr32 x 11 ^^^ rotr32 x 25

def smallSigma0 (x : Nat) : Nat := rotr32 x 7 ^^^ rotr32 x 18 ^^^ (x >>> 3)

def smallSigma1 (x : Nat) : Nat := rotr32 x 17 ^^^ rotr32 x 19 ^^^ (x >>> 10)

/-- The 64 round constants. -/
def sha256K : List Nat := [
  0x428a2f98, 0x71374491, 0xb5c0fbcf, 0xe9b5dba5, 0x3956c25b, 0x59f111f1, 0x923f82a4, 0xab1c5ed5,
  0xd807aa98, 0x12835b01, 0x243185be, 0x550c7dc3, 0x72be5d74, 0x80deb1fe, 0x9bdc06a7, 0xc19bf174,
  0xe49b69c1, 0xefbe4786, 0x0fc19dc6, 0x240ca1cc, 0x2de92c6f, 0x4a7484aa, 0x5cb0a9dc, 0x76f988da,
  0x983e5152, 0xa831c66d, 0xb00327c8, 0xbf597fc7, 0xc6e00bf3, 0xd5a79147, 0x06ca6351, 0x14292967,
  0x27b70a85, 0x2e1b2138, 0x4d2c6dfc, 0x53380d13, 0x650a7354, 0x766a0abb, 0x81c2c92e, 0x92722c85,
  0xa2bfe8a1, 0xa81a664b, 0xc24b8b70, 0xc76c51a3, 0xd192e819, 0xd6990624, 0xf40e3585, 0x106aa070,
  0x19a4c116, 0x1e376c08, 0x2748774c, 0x34b0bcb5, 0x391c0cb3, 0x4ed8aa4a, 0x5b9cca4f, 0x682e6ff3,
  0x748f82ee, 0x78a5636f, 0x84c87814, 0x8cc70208, 0x90befffa, 0xa4506ceb, 0xbef9a3f7, 0xc67178f2]

/-- The eight working words of the hash. -/
structure Sha256State where
  a : Nat
  b : Nat
  c : Nat
  d : Nat
  e : Nat
  f : Nat
  g : Nat
  h : Nat
deriving DecidableEq, Repr

def sha256Init : Sha256State :=
  ⟨0x6a09e667, 0xbb67ae85, 0x3c6ef372, 0xa54ff53a, 0x510e527f, 0x9b05688c, 0x1f83d9ab, 0x5be0cd19⟩

/-- One of the 64 rounds, for round constant `kw.1` and schedule word `kw.2`. -/
def sha256Round (s : Sha256State) (kw : Nat × Nat) : Sha256State :=
  let t1 := add32 (add32 (add32 (add32 s.h (bigSigma1 s.e)) (ch s.e s.f s.g)) kw.1) kw.2
  let t2 := add32 (bigSigma0 s.a) (maj s.a s.b s.c)
  ⟨add32 t1 t2, s.a, s.b, s.c, add32 s.d t1, s.e, s.f, s.g⟩

/-- Extend a message schedule, kept newest word first, by `n` further words. -/
def extendSchedule : Nat → List Nat → List Nat
  | 0, w => w
  | n + 1, w =>
    let x := add32 (add32 (add32 (smallSigma1 (w.getD 1 0)) (w.getD 6 0))
      (smallSigma0 (w.getD 14 0))) (w.getD 15 0)
    extendSchedule n (x :: w)

/-- Compression of one 16-word block into the running state. -/
def sha256Block (s : Sha256State) (block : List Nat) : Sha256State :=
  let w := (extendSchedule 48 block.reverse).reverse
  let r := (sha256K.zip w).foldl sha256Round s
  ⟨add32 s.a r.a, add32 s.b r.b, add32 s.c r.c, add32 s.d r.d,
   add32 s.e r.e, add32 s.f r.f, add32 s.g r.g, add32 s.h r.h⟩

def beWord (b0 b1 b2 b3 : Nat) : Nat := b0 * 16777216 + b1 * 65536 + b2 * 256 + b3

/-- Big-endian grouping of bytes into 32-bit words. -/
def toWords : List Nat → List Nat
  | b0 :: b1 :: b2 :: b3 :: rest => beWord b0 b1 b2 b3 :: toWords rest
  | _ => []

/-- Padding: a `0x80` byte, zero bytes up to 56 modulo 64, then the bit length on 8 bytes. -/
def sha256Pad (msg : List Nat) : List Nat :=
  let n := msg.length
  let zeros := (119 - n % 64) % 64
  let bits := (n * 8) % 18446744073709551616
  msg ++ [128] ++ List.replicate zeros 0 ++
    (List.range 8).map (fun i => (bits >>> (8 * (7 - i))) % 256)

/-- Fold the compression function over the padded message, 16 words at a time. -/
def sha256Blocks : Nat → Sha256State → List Nat → Sha256State
  | 0, s, _ => s
  | n + 1, s, ws =>
    if ws.isEmpty then s else sha256Blocks n (sha256Block s (ws.take 16)) (ws.drop 16)

def wordBytes (w : Nat) : List UInt8 :=
  [UInt8.ofNat (w >>> 24), UInt8.ofNat (w >>> 16), UInt8.ofNat (w >>> 8), UInt8.ofNat w]

/-- The function `sha256.Sum256`: the 32-byte digest of a message. -/
def sha256 (msg : List UInt8) : List UInt8 :=
  let ws := toWords (sha256Pad (msg.map UInt8.toNat))
  let s := sha256Blocks ws.length sha256Init ws
  wordBytes s.a ++ wordBytes s.b ++ wordBytes s.c ++ wordBytes s.d ++
  wordBytes s.e ++ wordBytes s.f ++ wordBytes s.g ++ wordBytes s.h

/-! ## fmt: the verbs `%x` and `%d` -/

/-- The digit table `ldigits` of package `fmt`. -/
def ldigits : GoString := lit "0123456789abcdef"

def hexDigit (n : Nat) : UInt8 := ldigits.getD n 0

/-- The verb `%x` applied to a byte array: two lowercase digits per byte, nothing between. -/
def hexEncode (bs : List UInt8) : GoString :=
  bs.flatMap (fun b => [hexDigit (b.toNat / 16), hexDigit (b.toNat % 16)])

/-- The verb `%d` applied to an integer. -/
def formatInt (i : Int) : GoString :=
  (if i < 0 then lit "-" else []) ++ (Nat.toDigits 10 i.natAbs).map (fun c => UInt8.ofNat c.toNat)

/-! ## encoding/base64: `StdEncoding` (RFC 4648 section 4, with padding) -/

def base64Alphabet : GoString :=
  lit "ABCDEFGHIJKLMNOPQRSTUVWXYZabcdefghijklmnopqrstuvwxyz0123456789+/"

def base64Pad : UInt8 := 61

def base64Char (n : Nat) : UInt8 := base64Alphabet.getD n 0

/-- The function `base64.StdEncoding.EncodeToString`. -/
def base64Encode : List UInt8 → GoString
  | a :: b :: c :: rest =>
    let n := a.toNat * 65536 + b.toNat * 256 + c.toNat
    base64Char (n / 262144) :: base64Char (n / 4096 % 64) :: base64Char (n / 64 % 64) ::
      base64Char (n % 64) :: base64Encode rest
  | [a, b] =>
    let n := a.toNat * 65536 + b.toNat * 256
    [base64Char (n / 262144), base64Char (n / 4096 % 64), base64Char (n / 64 % 64), base64Pad]
  | [a] =>
    let n := a.toNat * 65536
    [base64Char (n / 262144), base64Char (n / 4096 % 64), base64Pad, base64Pad]
  | [] => []

/-- Position of a character in the alphabet. -/
def base64Index (c : UInt8) : Option Nat :=
  let i := base64Alphabet.indexOf c
  if i < 64 then some i else none

/-- Decoding of padded standard base64 text as RFC 4648 defines it: groups of four
characters, padding only in the last group. -/
def base64Decode : GoString → Option (List UInt8)
  | [] => some []
  | c1 :: c2 :: c3 :: c4 :: rest =>
    if rest = [] ∧ c4 = base64Pad then
      if c3 = base64Pad then
        match base64Index c1, base64Index c2 with
        | some s1, some s2 => some [UInt8.ofNat ((s1 * 262144 + s2 * 4096) / 65536)]
        | _, _ => none
      else
        match base64Index c1, base64Index c2, base64Index c3 with
        | some s1, some s2, some s3 =>
          let n := s1 * 262144 + s2 * 4096 + s3 * 64
          some [UInt8.ofNat (n / 65536), UInt8.ofNat (n / 256 % 256)]
        | _, _, _ => none
    else
      match base64Index c1, base64Index c2, base64Index c3, base64Index c4, base64Decode rest with
      | some s1, some s2, some s3, some s4, some tail =>
        let n := s1 * 262144 + s2 * 4096 + s3 * 64 + s4
        some (UInt8.ofNat (n / 65536) :: UInt8.ofNat (n / 256 % 256) :: UInt8.ofNat (n % 256) :: tail)
      | _, _, _, _, _ => none
  | _ => none

/-! ## unicode/utf8 -/

/-- Length of the UTF-8 sequence that starts a byte string, or `0` when the first byte does
not start a well-formed sequence (`utf8.DecodeRune` then reports `RuneError` with size 1). -/
def utf8SeqLen : List UInt8 → Nat
  | [] => 0
  | b0 :: rest =>
    let n0 := b0.toNat
    let cont (b : UInt8) (lo hi : Nat) : Bool := lo ≤ b.toNat && b.toNat ≤ hi
    if n0 < 128 then 1
    else if 194 ≤ n0 ∧ n0 ≤ 223 then
      match rest with
      | b1 :: _ => if cont b1 128 191 then 2 else 0
      | _ => 0
    else if 224 ≤ n0 ∧ n0 ≤ 239 then
      match rest with
      | b1 :: b2 :: _ =>
        let lo := if n0 = 224 then 160 else 128
        let hi := if n0 = 237 then 159 else 191
        if cont b1 lo hi && cont b2 128 191 then 3 else 0
      | _ => 0
    else if 240 ≤ n0 ∧ n0 ≤ 244 then
      match rest with
      | b1 :: b2 :: b3 :: _ =>
        let lo := if n0 = 240 then 144 else 128
        let hi := if n0 = 244 then 143 else 191
        if cont b1 lo hi && cont b2 128 191 && cont b3 128 191 then 4 else 0
      | _ => 0
    else 0

/-! ## encoding/json: `Marshal` -/

/-- The table `htmlSafeSet` of `encoding/json`: ASCII bytes written without escaping. -/
def htmlSafe (b : UInt8) : Bool :=
  32 ≤ b.toNat && b.toNat < 128 && b != 34 && b != 38 && b != 60 && b != 62 && b != 92

/-- The escaped body of a JSON string (`appendString` with HTML escaping, as `json.Marshal`
uses it); `fuel` bounds the number of steps and the input length suffices. -/
def jsonEscape : Nat → List UInt8 → List UInt8
  | 0, _ => []
  | _, [] => []
  | fuel + 1, b :: rest =>
    if b.toNat < 128 then
      (if htmlSafe b then [b]
       else if b = 92 ∨ b = 34 then [92, b]
       else if b = 8 then lit "\\b"
       else if b = 12 then lit "\\f"
       else if b = 10 then lit "\\n"
       else if b = 13 then lit "\\r"
       else if b = 9 then lit "\\t"
       else lit "\\u00" ++ [hexDigit (b.toNat / 16), hexDigit (b.toNat % 16)])
      ++ jsonEscape fuel rest
    else
      let size := utf8SeqLen (b :: rest)
      if size = 0 then lit "\\ufffd" ++ jsonEscape fuel rest
      else if (b :: rest).take 3 = [226, 128, 168] then lit "\\u2028" ++ jsonEscape fuel (rest.drop 2)
      else if (b :: rest).take 3 = [226, 128, 169] then lit "\\u2029" ++ jsonEscape fuel (rest.drop 2)
      else (b :: rest).take size ++ jsonEscape fuel (rest.drop (size - 1))

/-- A JSON string literal for a Go string. -/
def jsonQuote (s : GoString) : List UInt8 := lit "\"" ++ jsonEscape s.length s ++ lit "\""

/-- Go values that `json.Marshal` is given. -/
inductive GoValue where
  | nil
  | bool (b : Bool)
  | int (n : Int)
  | string (s : GoString)
  | ptr (v : GoValue)
  | slice (xs : List GoValue)
  | map (entries : List (GoString × GoValue))
  | struct (fields : List (GoString × Bool × GoValue))
  | unsupported

def joinComma : List (List UInt8) → List UInt8
  | [] => []
  | [x] => x
  | x :: y :: rest => x ++ lit "," ++ joinComma (y :: rest)

def bytesLt : List UInt8 → List UInt8 → Bool
  | _, [] => false
  | [], _ :: _ => true
  | a :: as, b :: bs => a.toNat < b.toNat || (a == b && bytesLt as bs)

def insertByKey (e : GoString × List UInt8) : List (GoString × List UInt8) → List (GoString × List UInt8)
  | [] => [e]
  | x :: xs => if bytesLt e.1 x.1 then e :: x :: xs else x :: insertByKey e xs

def sortByKey : List (GoString × List UInt8) → List (GoString × List UInt8)
  | [] => []
  | x :: xs => insertByKey x (sortByKey xs)

def isEmptyValue : GoValue → Bool
  | .nil => true
  | .bool b => !b
  | .int n => n == 0
  | .string s => s.isEmpty
  | .slice xs => xs.isEmpty
  | .map es => es.isEmpty
  | _ => false

inductive MarshalError where
  | unsupportedType
deriving DecidableEq, Repr

mutual
def jsonMarshal : GoValue → Except MarshalError (List UInt8)
  | .nil => .ok (lit "null")
  | .bool b => .ok (if b then lit "true" else lit "false")
  | .int n => .ok (formatInt n)
  | .string s => .ok (jsonQuote s)
  | .ptr v => jsonMarshal v
  | .slice xs =>
    match marshalElems xs with
    | .ok parts => .ok (lit "[" ++ joinComma parts ++ lit "]")
    | .error e => .error e
  | .map es =>
    match marshalEntries es with
    | .ok parts =>
      .ok (lit "\x7b" ++ joinComma ((sortByKey parts).map (fun kv => jsonQuote kv.1 ++ lit ":" ++ kv.2))
        ++ lit "\x7d")
    | .error e => .error e
  | .struct fs =>
    match marshalFields fs with
    | .ok parts => .ok (lit "\x7b" ++ joinComma parts ++ lit "\x7d")
    | .error e => .error e
  | .unsupported => .error .unsupportedType
def marshalElems : List GoValue → Except MarshalError (List (List UInt8))
  | [] => .ok []
  | x :: xs =>
    match jsonMarshal x, marshalElems xs with
    | .ok a, .ok r => .ok (a :: r)
    | .error e, _ => .error e
    | _, .error e => .error e
def marshalEntries : List (GoString × GoValue) → Except MarshalError (List (GoString × List UInt8))
  | [] => .ok []
  | (k, v) :: rest =>
    match jsonMarshal v, marshalEntries rest with
    | .ok a, .ok r => .ok ((k, a) :: r)
    | .error e, _ => .error e
    | _, .error e => .error e
def marshalFields : List (GoString × Bool × GoValue) → Except MarshalError (List (List UInt8))
  | [] => .ok []
  | (name, omitEmpty, v) :: rest =>
    if omitEmpty && isEmptyValue v then marshalFields rest
    else
      match jsonMarshal v, marshalFields rest with
      | .ok a, .ok r => .ok ((jsonQuote name ++ lit ":" ++ a) :: r)
      | .error e, _ => .error e
      | _, .error e => .error e
end

/-! ## auth.go: signatures -/

/-- The function `createSignature`: `SHA256(shared_secret + base64_encoded_payload)` in hex. -/
def createSignature (sharedSecret encodedPayload : GoString) : GoString :=
  let message := sharedSecret ++ encodedPayload
  let hash := sha256 message
  hexEncode hash

/-- The function `verifySignature`: recompute and compare as strings. -/
def verifySignature (sharedSecret encodedPayload signature : GoString) : Bool :=
  let expectedSignature := createSignature sharedSecret encodedPayload
  expectedSignature == signature

deriving instance DecidableEq for Except

/-- The function `strings.ToUpper` on ASCII text: the letters `a` to `z` go to upper case. -/
def asciiUpper (s : GoString) : GoString :=
  s.map (fun c => if 97 ≤ c.toNat ∧ c.toNat ≤ 122 then UInt8.ofNat (c.toNat - 32) else c)

/-! ## auth.go: payload encoding and headers -/

/-- Go `error` values: messages built by the SDK, errors handed up by the standard library,
and wrapping by `fmt.Errorf` with `%w`. -/
inductive GoError where
  | text (message : GoString)
  | marshal (cause : MarshalError)
  | malformedJSON
  | typeMismatch
  | external (message : GoString)
  | wrap (context : GoString) (cause : GoError)
deriving DecidableEq, Repr

/-- The function `encodePayload`: JSON, then standard base64. -/
def encodePayload (payload : GoValue) : Except GoError GoString :=
  match jsonMarshal payload with
  | .error err => .error (.wrap (lit "failed to marshal payload") (.marshal err))
  | .ok jsonBytes => .ok (base64Encode jsonBytes)

/-- A Go `map[string]string` given by its entries. -/
abbrev Headers := List (GoString × GoString)

/-- Indexing `h[key]`: the value stored under the key, the empty string when there is none. -/
def Headers.get (h : Headers) (key : GoString) : GoString :=
  match h.find? (fun e => e.1 == key) with
  | some e => e.2
  | none => []

/-- The map literal `{"id": "0"}` that stands in for an absent payload. -/
def defaultPayload : GoValue := .map [(lit "id", .string (lit "0"))]

/-- The function `createAuthHeaders`; `none` is the nil interface value. -/
def createAuthHeaders (accountID sharedSecret : GoString) (payload : Option GoValue) :
    Except GoError Headers :=
  let encoded :=
    match payload with
    | some p => encodePayload p
    | none => encodePayload defaultPayload
  match encoded with
  | .error err => .error err
  | .ok encodedPayload =>
    let signature := createSignature sharedSecret encodedPayload
    .ok [(lit "X-ACCT-ID", accountID), (lit "X-PAYLOAD-SIG", signature),
         (lit "Content-Type", lit "application/json")]

/-- The function `createGetAuthHeaders`; `none` is the nil map, `some es` a map with the
entries `es`. -/
def createGetAuthHeaders (accountID sharedSecret : GoString)
    (sigPayload : Option (List (GoString × GoValue))) : Except GoError (Headers × GoString) :=
  let payload :=
    match sigPayload with
    | none => [(lit "id", GoValue.string (lit "0"))]
    | some es => es
  match encodePayload (.map payload) with
  | .error err => .error err
  | .ok encodedPayload =>
    let signature := createSignature sharedSecret encodedPayload
    let headers : Headers :=
      [(lit "X-ACCT-ID", accountID), (lit "X-PAYLOAD-SIG", signature),
       (lit "Content-Type", lit "application/json")]
    .ok (headers, encodedPayload)


/-! ## encoding/json: `Unmarshal` -/

/-- The syntax tree of a JSON text. Numbers keep their literal text; strings and member
names are held unquoted. -/
inductive JSON where
  | null
  | bool (b : Bool)
  | number (text : GoString)
  | string (s : GoString)
  | array (items : List JSON)
  | object (members : List (GoString × JSON))
deriving Repr

def isSpace (c : UInt8) : Bool := c == 32 || c == 9 || c == 13 || c == 10

def skipSpace : List UInt8 → List UInt8
  | [] => []
  | c :: rest => if isSpace c then skipSpace rest else c :: rest

def hexValue (c : UInt8) : Option Nat :=
  if 48 ≤ c.toNat ∧ c.toNat ≤ 57 then some (c.toNat - 48)
  else if 97 ≤ c.toNat ∧ c.toNat ≤ 102 then some (c.toNat - 87)
  else if 65 ≤ c.toNat ∧ c.toNat ≤ 70 then some (c.toNat - 55)
  else none

/-- The helper `getu4`: the number written by a leading `\uXXXX`, if the input starts
with one. -/
def getu4 : List UInt8 → Option Nat
  | bs :: u :: a :: b :: c :: d :: _ =>
    if bs = 92 ∧ u = 117 then
      match hexValue a, hexValue b, hexValue c, hexValue d with
      | some x, some y, some z, some w => some (x * 4096 + y * 256 + z * 16 + w)
      | _, _, _, _ => none
    else none
  | _ => none

/-- The character an escape letter stands for. -/
def simpleEscape (e : UInt8) : Option UInt8 :=
  if e = 34 ∨ e = 92 ∨ e = 47 then some e
  else if e = 98 then some 8
  else if e = 102 then some 12
  else if e = 110 then some 10
  else if e = 114 then some 13
  else if e = 116 then some 9
  else none

/-- Scan a string literal from just after its opening quote and unquote it, as the scanner
and `unquote` do together: the result is the string's value and the input after the closing
quote. Ill-formed UTF-8 and unpaired surrogates become U+FFFD. -/
def scanString : Nat → List UInt8 → Option (GoString × List UInt8)
  | 0, _ => none
  | _, [] => none
  | fuel + 1, c :: rest =>
    if c = 34 then some ([], rest)
    else if c = 92 then
      match rest with
      | [] => none
      | e :: rest2 =>
        if e = 117 then
          match getu4 (c :: rest) with
          | none => none
          | some rr =>
            let after := rest2.drop 4
            if 55296 ≤ rr ∧ rr < 57344 then
              match getu4 after with
              | some rr1 =>
                if rr < 56320 ∧ 56320 ≤ rr1 ∧ rr1 < 57344 then
                  (scanString fuel (after.drop 6)).map
                    (fun p => (utf8EncodeRune ((rr - 55296) * 1024 + (rr1 - 56320) + 65536) ++ p.1, p.2))
                else (scanString fuel after).map (fun p => (utf8EncodeRune 65533 ++ p.1, p.2))
              | none => (scanString fuel after).map (fun p => (utf8EncodeRune 65533 ++ p.1, p.2))
            else (scanString fuel after).map (fun p => (utf8EncodeRune rr ++ p.1, p.2))
        else
          match simpleEscape e with
          | some b => (scanString fuel rest2).map (fun p => (b :: p.1, p.2))
          | none => none
    else if c.toNat < 32 then none
    else if c.toNat < 128 then (scanString fuel rest).map (fun p => (c :: p.1, p.2))
    else
      let size := utf8SeqLen (c :: rest)
      if size = 0 then (scanString fuel rest).map (fun p => (utf8EncodeRune 65533 ++ p.1, p.2))
      else (scanString fuel (rest.drop (size - 1))).map
        (fun p => ((c :: rest).take size ++ p.1, p.2))

def isDigit (c : UInt8) : Bool := 48 ≤ c.toNat && c.toNat ≤ 57

/-- The longest run of decimal digits at the start of the input, and what follows it. -/
def takeDigits : List UInt8 → List UInt8 × List UInt8
  | [] => ([], [])
  | c :: rest =>
    if isDigit c then ((takeDigits rest).1.cons c, (takeDigits rest).2) else ([], c :: rest)

/-- Scan a number literal: `-? (0 | [1-9][0-9]*) (. [0-9]+)? ([eE] [+-]? [0-9]+)?`. -/
def scanNumber (input : List UInt8) : Option (GoString × List UInt8) :=
  let signed : List UInt8 × List UInt8 :=
    match input with
    | c :: r => if c = 45 then ([c], r) else ([], input)
    | [] => ([], [])
  let intPart : Option (List UInt8 × List UInt8) :=
    match signed.2 with
    | [] => none
    | d :: r =>
      if d = 48 then some (signed.1 ++ [d], r)
      else if isDigit d then some (signed.1 ++ d :: (takeDigits r).1, (takeDigits r).2)
      else none
  match intPart with
  | none => none
  | some (t1, r1) =>
    let frac : Option (List UInt8 × List UInt8) :=
      match r1 with
      | dot :: r =>
        if dot = 46 then
          if (takeDigits r).1 = [] then none
          else some (t1 ++ dot :: (takeDigits r).1, (takeDigits r).2)
        else some (t1, r1)
      | [] => some (t1, r1)
    match frac with
    | none => none
    | some (t2, r2) =>
      match r2 with
      | e :: r =>
        if e = 101 ∨ e = 69 then
          let sg : List UInt8 × List UInt8 :=
            match r with
            | s :: r3 => if s = 43 ∨ s = 45 then ([s], r3) else ([], r)
            | [] => ([], [])
          if (takeDigits sg.2).1 = [] then none
          else some (t2 ++ e :: sg.1 ++ (takeDigits sg.2).1, (takeDigits sg.2).2)
        else some (t2, r2)
      | [] => some (t2, r2)

/-- The scanner's bound on nested arrays and objects. -/
def maxNestingDepth : Nat := 10000

mutual
/-- Scan one value at the start of the input (no leading space); `depth` counts the arrays
and objects that are open. -/
def scanValue : Nat → Nat → List UInt8 → Option (JSON × List UInt8)
  | 0, _, _ => none
  | fuel + 1, depth, input =>
    match input with
    | [] => none
    | c :: rest =>
      if c = 123 then
        if depth + 1 > maxNestingDepth then none
        else
          match skipSpace rest with
          | [] => none
          | c2 :: rest2 =>
            if c2 = 125 then some (.object [], rest2)
            else
              match scanMembers fuel (depth + 1) (c2 :: rest2) with
              | some (ms, r) => some (.object ms, r)
              | none => none
      else if c = 91 then
        if depth + 1 > maxNestingDepth then none
        else
          match skipSpace rest with
          | [] => none
          | c2 :: rest2 =>
            if c2 = 93 then some (.array [], rest2)
            else
              match scanElements fuel (depth + 1) (c2 :: rest2) with
              | some (xs, r) => some (.array xs, r)
              | none => none
      else if c = 34 then
        match scanString (rest.length + 1) rest with
        | some (s, r) => some (.string s, r)
        | none => none
      else if input.take 4 = lit "true" then some (.bool true, input.drop 4)
      else if input.take 5 = lit "false" then some (.bool false, input.drop 5)
      else if input.take 4 = lit "null" then some (.null, input.drop 4)
      else
        match scanNumber input with
        | some (t, r) => some (.number t, r)
        | none => none
/-- Scan the members of an object from the opening quote of a name up to and including the
closing brace. -/
def scanMembers : Nat → Nat → List UInt8 → Option (List (GoString × JSON) × List UInt8)
  | 0, _, _ => none
  | fuel + 1, depth, input =>
    match input with
    | [] => none
    | q :: rest =>
      if q = 34 then
        match scanString (rest.length + 1) rest with
        | none => none
        | some (key, r1) =>
          match skipSpace r1 with
          | [] => none
          | colon :: r2 =>
            if colon = 58 then
              match scanValue fuel depth (skipSpace r2) with
              | none => none
              | some (v, r3) =>
                match skipSpace r3 with
                | [] => none
                | d :: r4 =>
                  if d = 125 then some ([(key, v)], r4)
                  else if d = 44 then
                    match scanMembers fuel depth (skipSpace r4) with
                    | some (ms, r5) => some ((key, v) :: ms, r5)
                    | none => none
                  else none
            else none
      else none
/-- Scan the elements of an array from its first element up to and including the closing
bracket. -/
def scanElements : Nat → Nat → List UInt8 → Option (List JSON × List UInt8)
  | 0, _, _ => none
  | fuel + 1, depth, input =>
    match scanValue fuel depth input with
    | none => none
    | some (v, r1) =>
      match skipSpace r1 with
      | [] => none
      | d :: r2 =>
        if d = 93 then some ([v], r2)
        else if d = 44 then
          match scanElements fuel depth (skipSpace r2) with
          | some (xs, r3) => some (v :: xs, r3)
          | none => none
        else none
end

/-- The syntax tree of a complete JSON text, or `none` when the text is not valid JSON
(`checkValid` fails). Every step of the scan consumes a byte, so the length of the text
bounds the number of steps. -/
def jsonScan (data : List UInt8) : Option JSON :=
  match scanValue (data.length + 1) 0 (skipSpace data) with
  | some (v, rest) => if skipSpace rest = [] then some v else none
  | none => none

/-- The key that `foldName` computes for matching a member name against a field name without
regard to case. ASCII letters go to upper case; of the runes outside ASCII only U+017F (long
s) and U+212A (Kelvin sign) fold to an ASCII letter, to `S` and `K`. Other bytes are kept, which
agrees with Go whenever one of the two names compared is ASCII, as every field name here is. -/
def foldName : Nat → List UInt8 → List UInt8
  | 0, _ => []
  | _, [] => []
  | fuel + 1, a :: rest =>
    if 97 ≤ a.toNat ∧ a.toNat ≤ 122 then UInt8.ofNat (a.toNat - 32) :: foldName fuel rest
    else if (a :: rest).take 2 = [197, 191] then 83 :: foldName fuel (rest.drop 1)
    else if (a :: rest).take 3 = [226, 132, 170] then 75 :: foldName fuel (rest.drop 2)
    else a :: foldName fuel rest

/-- Whether a member name selects the struct field with the given JSON name: an exact match
or, failing that, a match of the folded names. -/
def fieldMatches (field key : GoString) : Bool :=
  key == field || foldName key.length key == foldName field.length field

/-- Store a JSON value into a Go `string` field: a string is stored, `null` leaves the field
as it is, anything else is a type error that leaves the field as it is. -/
def storeString (current : GoString) (v : JSON) : GoString × Bool :=
  match v with
  | .string s => (s, true)
  | .null => (current, true)
  | _ => (current, false)

/-- The anonymous struct `errorResp` of `doRequest`. -/
structure ErrorResp where
  Error : GoString
  Message : GoString
deriving DecidableEq, Repr

/-- Decode the members of an object into `errorResp`, in order; the flag records that no type
error has occurred. -/
def decodeErrorMembers : List (GoString × JSON) → ErrorResp × Bool → ErrorResp × Bool
  | [], acc => acc
  | (key, v) :: rest, (r, good) =>
    if fieldMatches (lit "error") key then
      decodeErrorMembers rest (⟨(storeString r.Error v).1, r.Message⟩, good && (storeString r.Error v).2)
    else if fieldMatches (lit "message") key then
      decodeErrorMembers rest (⟨r.Error, (storeString r.Message v).1⟩, good && (storeString r.Message v).2)
    else decodeErrorMembers rest (r, good)

/-- The call `json.Unmarshal(body, &errorResp)` on a zero `errorResp`. -/
def unmarshalErrorResp (body : GoString) : ErrorResp × Option GoError :=
  match jsonScan body with
  | none => (⟨[], []⟩, some .malformedJSON)
  | some .null => (⟨[], []⟩, none)
  | some (.object ms) =>
    let d := decodeErrorMembers ms (⟨[], []⟩, true)
    (d.1, if d.2 then none else some .typeMismatch)
  | some _ => (⟨[], []⟩, some .typeMismatch)

/-- Decode the members of an object into the `Data json.RawMessage` field of `dataResp`: every
member named `data` overwrites the field with its value, whatever the value is. The raw bytes
kept by `json.RawMessage` are represented by the tree they scan to; `none` is the empty
`RawMessage`. -/
def decodeDataMembers : List (GoString × JSON) → Option JSON → Option JSON
  | [], acc => acc
  | (key, v) :: rest, acc =>
    if fieldMatches (lit "data") key then decodeDataMembers rest (some v)
    else decodeDataMembers rest acc

/-- The call `json.Unmarshal(body, &dataResp)` on a zero `dataResp`. -/
def unmarshalDataResp (body : GoString) : Option JSON × Option GoError :=
  match jsonScan body with
  | none => (none, some .malformedJSON)
  | some .null => (none, none)
  | some (.object ms) => (decodeDataMembers ms none, none)
  | some _ => (none, some .typeMismatch)

/-- A non-nil `result` argument: the value it points to before the call, and what decoding a
JSON document into a value of its type leaves there, with the error `json.Unmarshal` reports,
if any. -/
structure Target (R : Type) where
  current : R
  decode : JSON → R × Option GoError

/-- The call `json.Unmarshal(data, result)`. -/
def jsonUnmarshal {R : Type} (data : GoString) (result : Target R) : R × Option GoError :=
  match jsonScan data with
  | none => (result.current, some .malformedJSON)
  | some v => result.decode v

/-- A target of type `*interface{}` holding nil: the generic value that decoding produces is
represented by the tree itself. -/
def anyTarget : Target JSON := ⟨.null, fun v => (v, none)⟩

/-! ## http_client.go -/

/-- What a call leaves behind: the value `result` points to afterwards (`none` when `result`
is nil) and the returned `error` (`none` for nil). -/
structure Outcome (R : Type) where
  value : Option R
  err : Option GoError

/-- The error `fmt.Errorf("Wusul API Error (%d): %s", statusCode, msg)`. -/
def apiError (statusCode : Int) (msg : GoString) : GoError :=
  .text (lit "Wusul API Error (" ++ formatInt statusCode ++ lit "): " ++ msg)

/-- The part of `doRequest` that follows the reading of the response body. -/
def handleResponse {R : Type} (statusCode : Int) (body : GoString) (result : Option (Target R)) :
    Outcome R :=
  if statusCode < 200 ∨ statusCode ≥ 300 then
    match unmarshalErrorResp body with
    | (errorResp, none) =>
      let errorMsg := if errorResp.Error = [] then errorResp.Message else errorResp.Error
      if errorMsg ≠ [] then ⟨result.map (fun t => t.current), some (apiError statusCode errorMsg)⟩
      else ⟨result.map (fun t => t.current), some (apiError statusCode body)⟩
    | (_, some _) => ⟨result.map (fun t => t.current), some (apiError statusCode body)⟩
  else
    match result with
    | none => ⟨none, none⟩
    | some t =>
      match unmarshalDataResp body with
      | (some data, none) =>
        match t.decode data with
        | (v, some err) => ⟨some v, some (.wrap (lit "failed to unmarshal data field") err)⟩
        | (v, none) => ⟨some v, none⟩
      | _ =>
        match jsonUnmarshal body t with
        | (v, some err) => ⟨some v, some (.wrap (lit "failed to unmarshal response") err)⟩
        | (v, none) => ⟨some v, none⟩

/-- The type `url.Values`, given by its entries. -/
abbrev Values := List (GoString × List GoString)

/-- The method `Values.Set`: the key gets the one value, replacing what it had. -/
def Values.Set (v : Values) (key value : GoString) : Values :=
  (key, [value]) :: v.filter (fun e => e.1 != key)

/-- The method `Values.Get`: the first value of the key, the empty string when there is
none. -/
def Values.Get (v : Values) (key : GoString) : GoString :=
  match v.find? (fun e => e.1 == key) with
  | some e => e.2.headD []
  | none => []

/-- A parsed URL: its text without the query, and its query parameters. -/
structure ParsedURL where
  location : GoString
  query : Values
deriving DecidableEq, Repr

/-- An `http.Request` as the SDK builds it; `body` is `none` when no body reader is given. -/
structure Request where
  method : GoString
  url : ParsedURL
  header : Headers
  body : Option (List UInt8)
deriving DecidableEq, Repr

/-- What the network does with a request: `client.Do` fails, or it answers and reading the
body fails, or it answers with a status code and a body. -/
inductive Exchange where
  | failed (err : GoError)
  | unreadable (statusCode : Int) (err : GoError)
  | response (statusCode : Int) (body : GoString)
deriving DecidableEq, Repr

/-- The surroundings of the SDK: `url.Parse` (with the query as `URL.Query` reads it) and the
HTTP exchange made by an `http.Client` with a given timeout. A URL whose query has been
rewritten is taken to parse back to itself. -/
structure Env where
  urlParse : GoString → Except GoError ParsedURL
  roundTrip : Int → Request → Exchange

/-- The struct `HTTPClient`; the timeout (in nanoseconds) is that of its `http.Client`. -/
structure HTTPClient where
  timeout : Int
  accountID : GoString
  sharedSecret : GoString
  baseURL : GoString
deriving DecidableEq, Repr

/-- The function `NewHTTPClient`. -/
def NewHTTPClient (accountID sharedSecret baseURL : GoString) (timeout : Int) : HTTPClient :=
  { timeout := timeout, accountID := accountID, sharedSecret := sharedSecret, baseURL := baseURL }

/-- The method `doRequest`. -/
def HTTPClient.doRequest {R : Type} (env : Env) (c : HTTPClient) (req : Request)
    (result : Option (Target R)) : Outcome R :=
  match env.roundTrip c.timeout req with
  | .failed err => ⟨result.map (fun t => t.current), some (.wrap (lit "request failed") err)⟩
  | .unreadable _ err =>
    ⟨result.map (fun t => t.current), some (.wrap (lit "failed to read response body") err)⟩
  | .response statusCode body => handleResponse statusCode body result

/-- The request that `Get` builds, or the error it returns before any request is made. -/
def HTTPClient.getRequest (env : Env) (c : HTTPClient) (path : GoString)
    (sigPayload : Option (List (GoString × GoValue))) : Except GoError Request :=
  match createGetAuthHeaders c.accountID c.sharedSecret sigPayload with
  | .error err => .error (.wrap (lit "failed to create auth headers") err)
  | .ok (headers, encodedPayload) =>
    let fullURL := c.baseURL ++ path
    if encodedPayload ≠ [] then
      match env.urlParse fullURL with
      | .error err => .error (.wrap (lit "failed to parse URL") err)
      | .ok parsedURL =>
        let q := parsedURL.query.Set (lit "sig_payload") encodedPayload
        .ok { method := lit "GET", url := { parsedURL with query := q }, header := headers,
              body := none }
    else
      match env.urlParse fullURL with
      | .error err => .error (.wrap (lit "failed to create request") err)
      | .ok u => .ok { method := lit "GET", url := u, header := headers, body := none }

/-- The method `Get`. -/
def HTTPClient.Get {R : Type} (env : Env) (c : HTTPClient) (path : GoString)
    (sigPayload : Option (List (GoString × GoValue))) (result : Option (Target R)) : Outcome R :=
  match c.getRequest env path sigPayload with
  | .error err => ⟨result.map (fun t => t.current), some err⟩
  | .ok req => c.doRequest env req result

/-- The request that `Post` and `Patch` build for the given method, or the error returned
before any request is made. -/
def HTTPClient.bodyRequest (env : Env) (c : HTTPClient) (method path : GoString)
    (data : Option GoValue) : Except GoError Request :=
  match createAuthHeaders c.accountID c.sharedSecret data with
  | .error err => .error (.wrap (lit "failed to create auth headers") err)
  | .ok headers =>
    let marshalled : Except GoError (List UInt8) :=
      match data with
      | none => .ok []
      | some d =>
        match jsonMarshal d with
        | .error err => .error (.wrap (lit "failed to marshal request body") (.marshal err))
        | .ok body => .ok body
    match marshalled with
    | .error err => .error err
    | .ok body =>
      match env.urlParse (c.baseURL ++ path) with
      | .error err => .error (.wrap (lit "failed to create request") err)
      | .ok u => .ok { method := method, url := u, header := headers, body := some body }

/-- The method `Post`. -/
def HTTPClient.Post {R : Type} (env : Env) (c : HTTPClient) (path : GoString)
    (data : Option GoValue) (result : Option (Target R)) : Outcome R :=
  match c.bodyRequest env (lit "POST") path data with
  | .error err => ⟨result.map (fun t => t.current), some err⟩
  | .ok req => c.doRequest env req result

/-- The method `Patch`. -/
def HTTPClient.Patch {R : Type} (env : Env) (c : HTTPClient) (path : GoString)
    (data : Option GoValue) (result : Option (Target R)) : Outcome R :=
  match c.bodyRequest env (lit "PATCH") path data with
  | .error err => ⟨result.map (fun t => t.current), some err⟩
  | .ok req => c.doRequest env req result

/-- The request that `Delete` builds. -/
def HTTPClient.deleteRequest (env : Env) (c : HTTPClient) (path : GoString) :
    Except GoError Request :=
  match createAuthHeaders c.accountID c.sharedSecret none with
  | .error err => .error (.wrap (lit "failed to create auth headers") err)
  | .ok headers =>
    match env.urlParse (c.baseURL ++ path) with
    | .error err => .error (.wrap (lit "failed to create request") err)
    | .ok u => .ok { method := lit "DELETE", url := u, header := headers, body := none }

/-- The method `Delete`. -/
def HTTPClient.Delete {R : Type} (env : Env) (c : HTTPClient) (path : GoString)
    (result : Option (Target R)) : Outcome R :=
  match c.deleteRequest env path with
  | .error err => ⟨result.map (fun t => t.current), some err⟩
  | .ok req => c.doRequest env req result

/-! ## types.go -/

/-- The struct `Config`; the timeout is a `time.Duration`, in nanoseconds. -/
structure Config where
  AccountID : GoString
  SharedSecret : GoString
  BaseURL : GoString
  Timeout : Int
deriving DecidableEq, Repr

/-- A `map[string]interface{}` field as a Go value: nil, or a map with the given entries. -/
def mapValue (m : Option (List (GoString × GoValue))) : GoValue :=
  match m with
  | none => .nil
  | some es => .map es

/-- The struct `UpdateAccessPassParams`. -/
structure UpdateAccessPassParams where
  AccessPassID : GoString
  EmployeeID : GoString
  FullName : GoString
  Classification : GoString
  ExpirationDate : GoString
  EmployeePhoto : GoString
  Title : GoString
  FileData : GoString
  Metadata : Option (List (GoString × GoValue))

/-- The fields of `UpdateAccessPassParams` as `json.Marshal` sees them, with their JSON names
and `omitempty` flags; `AccessPassID` has the tag `json:"-"` and is left out. -/
def UpdateAccessPassParams.toValue (p : UpdateAccessPassParams) : GoValue :=
  .struct [(lit "employeeId", true, .string p.EmployeeID),
           (lit "fullName", true, .string p.FullName),
           (lit "classification", true, .string p.Classification),
           (lit "expirationDate", true, .string p.ExpirationDate),
           (lit "employeePhoto", true, .string p.EmployeePhoto),
           (lit "title", true, .string p.Title),
           (lit "fileData", true, .string p.FileData),
           (lit "metadata", true, mapValue p.Metadata)]

/-- The struct `ListAccessPassesParams`. -/
structure ListAccessPassesParams where
  TemplateID : GoString
  State : GoString
deriving DecidableEq, Repr

/-- The struct `SupportInfo`. -/
structure SupportInfo where
  SupportURL : GoString
  SupportPhoneNumber : GoString
  SupportEmail : GoString
  PrivacyPolicyURL : GoString
  TermsAndConditionsURL : GoString
deriving DecidableEq, Repr

def SupportInfo.toValue (s : SupportInfo) : GoValue :=
  .struct [(lit "supportUrl", true, .string s.SupportURL),
           (lit "supportPhoneNumber", true, .string s.SupportPhoneNumber),
           (lit "supportEmail", true, .string s.SupportEmail),
           (lit "privacyPolicyUrl", true, .string s.PrivacyPolicyURL),
           (lit "termsAndConditionsUrl", true, .string s.TermsAndConditionsURL)]

/-- A pointer field as a Go value: nil, or a pointer to the given value. -/
def ptrValue (p : Option GoValue) : GoValue :=
  match p with
  | none => .nil
  | some v => .ptr v

/-- The struct `UpdateCardTemplateParams`. -/
structure UpdateCardTemplateParams where
  CardTemplateID : GoString
  Name : GoString
  AllowOnMultipleDevices : Option Bool
  WatchCount : Option Int
  IPhoneCount : Option Int
  SupportInfo : Option SupportInfo
  Metadata : Option (List (GoString × GoValue))

/-- The fields of `UpdateCardTemplateParams` as `json.Marshal` sees them; `CardTemplateID` has
the tag `json:"-"` and is left out. -/
def UpdateCardTemplateParams.toValue (p : UpdateCardTemplateParams) : GoValue :=
  .struct [(lit "name", true, .string p.Name),
           (lit "allowOnMultipleDevices", true, ptrValue (p.AllowOnMultipleDevices.map .bool)),
           (lit "watchCount", true, ptrValue (p.WatchCount.map .int)),
           (lit "iphoneCount", true, ptrValue (p.IPhoneCount.map .int)),
           (lit "supportInfo", true, ptrValue (p.SupportInfo.map SupportInfo.toValue)),
           (lit "metadata", true, mapValue p.Metadata)]

/-- The struct `EventLogFilters`. -/
structure EventLogFilters where
  Device : GoString
  StartDate : GoString
  EndDate : GoString
  EventType : GoString
deriving DecidableEq, Repr

/-- The struct `ReadEventLogParams`. -/
structure ReadEventLogParams where
  CardTemplateID : GoString
  Filters : Option EventLogFilters
deriving DecidableEq, Repr

/-! ## Calls of resource methods -/

/-- What a call of an SDK method leaves behind: the requests it handed to `http.Client.Do`, in
order, the value it returns (`none` for nil) and the `error` it returns (`none` for nil). -/
structure Call (R : Type) where
  sent : List Request
  value : Option R
  err : Option GoError

/-- The requests sent once a request builder has run: the request if one was built, none if
the builder returned an error. -/
def sentRequests (built : Except GoError Request) : List Request :=
  match built with
  | .ok req => [req]
  | .error _ => []

/-- The common tail of the resource methods, `if err != nil { return nil, err }` and then
`return &result, nil`, after the requests in `sent`. -/
def Call.finish {R : Type} (sent : List Request) (out : Outcome R) : Call R :=
  match out.err with
  | some err => ⟨sent, none, some err⟩
  | none => ⟨sent, out.value, none⟩

/-! ## access_passes.go -/

/-- The struct `AccessPasses`; its `http` pointer is the client that `newAccessPasses` put
there. -/
structure AccessPasses where
  http : HTTPClient
deriving DecidableEq, Repr

/-- The function `newAccessPasses`. -/
def newAccessPasses (httpClient : HTTPClient) : AccessPasses := { http := httpClient }

/-- The map `sigPayload` that `AccessPasses.List` builds: made empty, then given the filters
that are set. -/
def listSigPayload (params : Option ListAccessPassesParams) : List (GoString × GoValue) :=
  match params with
  | none => []
  | some p =>
    (if p.TemplateID ≠ [] then [(lit "template_id", GoValue.string p.TemplateID)] else []) ++
    (if p.State ≠ [] then [(lit "state", GoValue.string p.State)] else [])

/-- The method `AccessPasses.List`; `result` is the local variable of that name. -/
def AccessPasses.List {R : Type} (env : Env) (a : AccessPasses)
    (params : Option ListAccessPassesParams) (result : Target R) : Call R :=
  let sigPayload := listSigPayload params
  Call.finish (sentRequests (a.http.getRequest env (lit "/v1/access-passes") (some sigPayload)))
    (a.http.Get env (lit "/v1/access-passes") (some sigPayload) (some result))

/-- The method `AccessPasses.Update`. -/
def AccessPasses.Update {R : Type} (env : Env) (a : AccessPasses)
    (params : UpdateAccessPassParams) (result : Target R) : Call R :=
  if params.AccessPassID = [] then
    ⟨[], none, some (.text (lit "accessPassId is required"))⟩
  else
    let path := lit "/v1/access-passes/" ++ params.AccessPassID
    Call.finish (sentRequests (a.http.bodyRequest env (lit "PATCH") path (some params.toValue)))
      (a.http.Patch env path (some params.toValue) (some result))

/-- The method `AccessPasses.Suspend`. -/
def AccessPasses.Suspend {R : Type} (env : Env) (a : AccessPasses) (accessPassID : GoString)
    (result : Target R) : Call R :=
  if accessPassID = [] then
    ⟨[], none, some (.text (lit "accessPassId is required"))⟩
  else
    let path := lit "/v1/access-passes/" ++ accessPassID ++ lit "/suspend"
    Call.finish (sentRequests (a.http.bodyRequest env (lit "POST") path none))
      (a.http.Post env path none (some result))

/-- The method `AccessPasses.Resume`. -/
def AccessPasses.Resume {R : Type} (env : Env) (a : AccessPasses) (accessPassID : GoString)
    (result : Target R) : Call R :=
  if accessPassID = [] then
    ⟨[], none, some (.text (lit "accessPassId is required"))⟩
  else
    let path := lit "/v1/access-passes/" ++ accessPassID ++ lit "/resume"
    Call.finish (sentRequests (a.http.bodyRequest env (lit "POST") path none))
      (a.http.Post env path none (some result))

/-- The method `AccessPasses.Unlink`. -/
def AccessPasses.Unlink {R : Type} (env : Env) (a : AccessPasses) (accessPassID : GoString)
    (result : Target R) : Call R :=
  if accessPassID = [] then
    ⟨[], none, some (.text (lit "accessPassId is required"))⟩
  else
    let path := lit "/v1/access-passes/" ++ accessPassID ++ lit "/unlink"
    Call.finish (sentRequests (a.http.bodyRequest env (lit "POST") path none))
      (a.http.Post env path none (some result))

/-- The method `AccessPasses.Delete`, which posts to the `delete` path. -/
def AccessPasses.Delete {R : Type} (env : Env) (a : AccessPasses) (accessPassID : GoString)
    (result : Target R) : Call R :=
  if accessPassID = [] then
    ⟨[], none, some (.text (lit "accessPassId is required"))⟩
  else
    let path := lit "/v1/access-passes/" ++ accessPassID ++ lit "/delete"
    Call.finish (sentRequests (a.http.bodyRequest env (lit "POST") path none))
      (a.http.Post env path none (some result))

/-! ## console.go -/

/-- The struct `Console`; its `http` pointer is the client that `newConsole` put there. -/
structure Console where
  http : HTTPClient
deriving DecidableEq, Repr

/-- The function `newConsole`. -/
def newConsole (httpClient : HTTPClient) : Console := { http := httpClient }

/-- The method `Console.ReadTemplate`. -/
def Console.ReadTemplate {R : Type} (env : Env) (c : Console) (cardTemplateID : GoString)
    (result : Target R) : Call R :=
  if cardTemplateID = [] then
    ⟨[], none, some (.text (lit "cardTemplateId is required"))⟩
  else
    let sigPayload : List (GoString × GoValue) := [(lit "id", .string cardTemplateID)]
    let path := lit "/v1/console/card-templates/" ++ cardTemplateID
    Call.finish (sentRequests (c.http.getRequest env path (some sigPayload)))
      (c.http.Get env path (some sigPayload) (some result))

/-- The method `Console.UpdateTemplate`. -/
def Console.UpdateTemplate {R : Type} (env : Env) (c : Console)
    (params : UpdateCardTemplateParams) (result : Target R) : Call R :=
  if params.CardTemplateID = [] then
    ⟨[], none, some (.text (lit "cardTemplateId is required"))⟩
  else
    let path := lit "/v1/console/card-templates/" ++ params.CardTemplateID
    Call.finish (sentRequests (c.http.bodyRequest env (lit "PATCH") path (some params.toValue)))
      (c.http.Patch env path (some params.toValue) (some result))

/-- The method `Console.PublishTemplate`. -/
def Console.PublishTemplate {R : Type} (env : Env) (c : Console) (cardTemplateID : GoString)
    (result : Target R) : Call R :=
  if cardTemplateID = [] then
    ⟨[], none, some (.text (lit "cardTemplateId is required"))⟩
  else
    let path := lit "/v1/console/card-templates/" ++ cardTemplateID ++ lit "/publish"
    Call.finish (sentRequests (c.http.bodyRequest env (lit "POST") path none))
      (c.http.Post env path none (some result))

/-- The method `Console.EventLog`. -/
def Console.EventLog {R : Type} (env : Env) (c : Console) (params : ReadEventLogParams)
    (result : Target R) : Call R :=
  if params.CardTemplateID = [] then
    ⟨[], none, some (.text (lit "cardTemplateId is required"))⟩
  else
    let sigPayload : List (GoString × GoValue) :=
      [(lit "id", GoValue.string params.CardTemplateID)] ++
      (match params.Filters with
       | none => []
       | some f =>
         (if f.Device ≠ [] then [(lit "device", GoValue.string f.Device)] else []) ++
         (if f.StartDate ≠ [] then [(lit "start_date", GoValue.string f.StartDate)] else []) ++
         (if f.EndDate ≠ [] then [(lit "end_date", GoValue.string f.EndDate)] else []) ++
         (if f.EventType ≠ [] then [(lit "event_type", GoValue.string f.EventType)] else []))
    let path := lit "/v1/console/card-templates/" ++ params.CardTemplateID ++ lit "/logs"
    Call.finish (sentRequests (c.http.getRequest env path (some sigPayload)))
      (c.http.Get env path (some sigPayload) (some result))

/-! ## client.go -/

/-- The struct `Client`. The exported pointers `AccessPasses` and `Console` may be nil
(`none`); the `http` pointer is the client that `NewClient` put there. -/
structure Client where
  http : HTTPClient
  AccessPasses : Option AccessPasses
  Console : Option Console
deriving DecidableEq, Repr

/-- The constant `time.Second`, in nanoseconds. -/
def timeSecond : Int := 1000000000

/-- What a call of `NewClient` leaves behind: the HTTP clients that `NewHTTPClient` constructed
during the call, the returned `*Client` (`none` for nil) and the returned `error`. -/
structure NewClientResult where
  built : List HTTPClient
  client : Option Client
  err : Option GoError
deriving DecidableEq, Repr

/-- The function `NewClient`; `config` is `none` for a nil pointer. -/
def NewClient (accountID sharedSecret : GoString) (config : Option Config) : NewClientResult :=
  if accountID = [] ∨ sharedSecret = [] then
    ⟨[], none, some (.text (lit "accountId and sharedSecret are required"))⟩
  else
    let baseURL : GoString :=
      match config with
      | some cfg => if cfg.BaseURL ≠ [] then cfg.BaseURL else lit "https://api.wusul.io"
      | none => lit "https://api.wusul.io"
    let timeout : Int :=
      match config with
      | some cfg => if cfg.Timeout > 0 then cfg.Timeout else 30 * timeSecond
      | none => 30 * timeSecond
    let httpClient := NewHTTPClient accountID sharedSecret baseURL timeout
    ⟨[httpClient],
     some { http := httpClient, AccessPasses := some (newAccessPasses httpClient),
            Console := some (newConsole httpClient) },
     none⟩

/-- The method `Client.Health`; `result` is the local variable of that name. -/
def Client.Health {R : Type} (env : Env) (c : Client) (result : Target R) : Call R :=
  Call.finish (sentRequests (c.http.getRequest env (lit "/health") none))
    (c.http.Get env (lit "/health") none (some result))

/-! ## Notions used to state the properties -/

/-- Whether an error is one of the `Wusul API Error (...)` errors of `doRequest`. -/
def isAPIError (e : GoError) : Bool :=
  match e with
  | .text message => message.take 17 == lit "Wusul API Error ("
  | _ => false

/-- The errors that the sending of a request can end with: API errors and wrapped errors. -/
def transportError (e : Option GoError) : Prop :=
  ∀ x, e = some x → isAPIError x = true ∨ ∃ ctx cause, x = GoError.wrap ctx cause

/-- An environment in which every URL parses, to itself and without a query, and the server
answers every request with status 200 and the body `{}`. -/
def plainEnv : Env :=
  { urlParse := fun s => .ok { location := s, query := [] },
    roundTrip := fun _ _ => .response 200 (lit "\x7b\x7d") }

/-! ## Map iteration order

`json.Marshal` ranges over a Go map to collect its entries, and the order of that iteration may
differ from one call to the next. The entry list of `GoValue.map` is the order met by one
call. -/

mutual
/-- Two views of one Go value: they differ at most in the order in which the entries of its
maps are met, at any depth. The keys of a map are distinct. -/
inductive SameValue : GoValue → GoValue → Prop
  | nil : SameValue .nil .nil
  | bool (b : Bool) : SameValue (.bool b) (.bool b)
  | int (n : Int) : SameValue (.int n) (.int n)
  | string (s : GoString) : SameValue (.string s) (.string s)
  | ptr {v w : GoValue} : SameValue v w → SameValue (.ptr v) (.ptr w)
  | slice {xs ys : List GoValue} : SameElems xs ys → SameValue (.slice xs) (.slice ys)
  | map {es fs gs : List (GoString × GoValue)} :
      SameEntries es fs → List.Perm fs gs → (es.map Prod.fst).Nodup →
      SameValue (.map es) (.map gs)
  | struct {fs gs : List (GoString × Bool × GoValue)} :
      SameFields fs gs → SameValue (.struct fs) (.struct gs)
  | unsupported : SameValue .unsupported .unsupported
/-- Two views of the elements of one slice, in order. -/
inductive SameElems : List GoValue → List GoValue → Prop
  | nil : SameElems [] []
  | cons {x y : GoValue} {xs ys : List GoValue} :
      SameValue x y → SameElems xs ys → SameElems (x :: xs) (y :: ys)
/-- Two views of the values of the entries of one map, the entries taken in the same order. -/
inductive SameEntries : List (GoString × GoValue) → List (GoString × GoValue) → Prop
  | nil : SameEntries [] []
  | cons {k : GoString} {v w : GoValue} {es fs : List (GoString × GoValue)} :
      SameValue v w → SameEntries es fs → SameEntries ((k, v) :: es) ((k, w) :: fs)
/-- Two views of the fields of one struct, in order. -/
inductive SameFields :
    List (GoString × Bool × GoValue) → List (GoString × Bool × GoValue) → Prop
  | nil : SameFields [] []
  | cons {name : GoString} {omitEmpty : Bool} {v w : GoValue}
      {fs gs : List (GoString × Bool × GoValue)} :
      SameValue v w → SameFields fs gs →
      SameFields ((name, omitEmpty, v) :: fs) ((name, omitEmpty, w) :: gs)
end

/-- The request of `Post` and `Patch` when the two serializations of the body meet its maps in
possibly different orders: `createAuthHeaders` sees the body as `signed`, and the
`json.Marshal` that makes the request body sees it as `sent`. -/
def HTTPClient.bodyRequestSeen (env : Env) (c : HTTPClient) (method path : GoString)
    (signed sent : Option GoValue) : Except GoError Request :=
  match createAuthHeaders c.accountID c.sharedSecret signed with
  | .error err => .error (.wrap (lit "failed to create auth headers") err)
  | .ok headers =>
    let marshalled : Except GoError (List UInt8) :=
      match sent with
      | none => .ok []
      | some d =>
        match jsonMarshal d with
        | .error err => .error (.wrap (lit "failed to marshal request body") (.marshal err))
        | .ok body => .ok body
    match marshalled with
    | .error err => .error err
    | .ok body =>
      match env.urlParse (c.baseURL ++ path) with
      | .error err => .error (.wrap (lit "failed to create request") err)
      | .ok u => .ok { method := method, url := u, header := headers, body := some body }

/-! ## Response bodies named by the specification -/

/-- The response body `{"data": v}` around a JSON text `v`. -/
def wrapData (v : GoString) : GoString := lit "\x7b\"data\":" ++ v ++ lit "\x7d"

/-- The message the specification gives to an error response: when the body parses into the
fields `error` and `message`, the `error` field if it is not empty, otherwise the `message` field
if it is not empty; in every other case the raw text of the body. -/
def apiMessage (body : GoString) : GoString :=
  match unmarshalErrorResp body with
  | (fields, none) =>
    if fields.Error ≠ [] then fields.Error
    else if fields.Message ≠ [] then fields.Message
    else body
  | (_, some _) => body

/-! ## Theorems -/

/-- FIPS 180-4 test vector: the digest of the three bytes `abc`. -/
theorem sha256_abc :
    hexEncode (sha256 (lit "abc")) =
      lit "ba7816bf8f01cfea414140de5dae2223b00361a396177a9cb410ff61f20015ad" := by
  decide!

/-- FIPS 180-4 test vector: the digest of the empty message. -/
theorem sha256_empty :
    hexEncode (sha256 []) =
      lit "e3b0c44298fc1c149afbf4c8996fb92427ae41e4649b934ca495991b7852b855" := by
  decide!

/-- FIPS 180-4 test vector: a 56-byte message, which pads to two blocks. -/
theorem sha256_two_blocks :
    hexEncode (sha256 (lit "abcdbcdecdefdefgefghfghighijhijkijkljklmklmnlmnomnopnopq")) =
      lit "248d6a61d20638b8e5c026930c3e6039a33ce45964ff2167f6ecedd419db06c1" := by
  decide!

/-- RFC 4648 section 10 test vectors for base64. -/
theorem base64_rfc_vectors :
    base64Encode (lit "f") = lit "Zg==" ∧ base64Encode (lit "fo") = lit "Zm8=" ∧
    base64Encode (lit "foo") = lit "Zm9v" ∧ base64Encode (lit "foobar") = lit "Zm9vYmFy" ∧
    base64Decode (lit "Zg==") = some (lit "f") ∧ base64Decode (lit "Zm9vYmE=") = some (lit "fooba") := by
  decide!

/-! ### Bytes and hexadecimal text -/

theorem toNat_lt (b : UInt8) : b.toNat < 256 := UInt8.toNat_lt b

theorem ofNat_eq (a : UInt8) (n : Nat) (h : n = a.toNat) : UInt8.ofNat n = a :=
  UInt8.toNat.inj (by rw [h, UInt8.toNat_ofNat_of_lt (UInt8.toNat_lt a)])

theorem sha256_length (m : List UInt8) : (sha256 m).length = 32 := by
  simp [sha256, wordBytes]

theorem hexEncode_length (bs : List UInt8) : (hexEncode bs).length = 2 * bs.length := by
  induction bs with
  | nil => rfl
  | cons b bs ih =>
    simp only [hexEncode, List.flatMap_cons, List.length_append, List.length_cons,
      List.length_nil] at ih ⊢
    omega

theorem hexDigit_mem (n : Nat) (h : n < 16) : hexDigit n ∈ lit "0123456789abcdef" := by
  interval_cases n <;> decide

theorem hexDigit_inj (m n : Nat) (hm : m < 16) (hn : n < 16) (h : hexDigit m = hexDigit n) :
    m = n := by
  interval_cases m <;> interval_cases n <;> first | rfl | (exfalso; revert h; decide)

theorem hexEncode_mem (bs : List UInt8) : ∀ c ∈ hexEncode bs, c ∈ lit "0123456789abcdef" := by
  intro c hc
  simp only [hexEncode, List.mem_flatMap, List.mem_cons, List.mem_singleton, List.not_mem_nil,
    or_false] at hc
  obtain ⟨b, -, rfl | rfl⟩ := hc
  · exact hexDigit_mem _ (by have := toNat_lt b; omega)
  · exact hexDigit_mem _ (by omega)

theorem hexEncode_injective : ∀ (xs ys : List UInt8), hexEncode xs = hexEncode ys → xs = ys := by
  intro xs
  induction xs with
  | nil =>
    intro ys h
    cases ys with
    | nil => rfl
    | cons y ys => simp [hexEncode] at h
  | cons x xs ih =>
    intro ys h
    cases ys with
    | nil => simp [hexEncode] at h
    | cons y ys =>
      simp only [hexEncode, List.flatMap_cons, List.cons_append, List.nil_append,
        List.cons.injEq] at h
      obtain ⟨h1, h2, h3⟩ := h
      have hx := toNat_lt x
      have hy := toNat_lt y
      have e1 := hexDigit_inj _ _ (by omega) (by omega) h1
      have e2 := hexDigit_inj _ _ (by omega) (by omega) h2
      have hxy : x = y := UInt8.toNat.inj (by omega)
      rw [hxy, ih ys h3]

theorem createSignature_length (s p : GoString) : (createSignature s p).length = 64 := by
  simp [createSignature, hexEncode_length, sha256_length]

theorem createSignature_ne_nil (s p : GoString) : createSignature s p ≠ [] := by
  intro h
  have := createSignature_length s p
  rw [h] at this
  simp at this

/-! ### Signatures (auth.go) -/

/-- C1: `createSignature s p` is the lowercase hexadecimal rendering of SHA-256 of the bytes of
`s` directly followed by the bytes of `p`; it has exactly 64 characters, each among `0-9a-f`, it
is never empty, and equal arguments give equal results. -/
theorem createSignature_spec (s p : GoString) :
    createSignature s p = hexEncode (sha256 (s ++ p)) ∧
    (createSignature s p).length = 64 ∧
    (∀ c ∈ createSignature s p, c ∈ lit "0123456789abcdef") ∧
    createSignature s p ≠ [] ∧
    (∀ s2 p2 : GoString, s2 = s → p2 = p → createSignature s2 p2 = createSignature s p) :=
  ⟨rfl, createSignature_length s p, hexEncode_mem _, createSignature_ne_nil s p,
    fun _ _ hs hp => by rw [hs, hp]⟩

/-- The signature of the test suite: secret `test_secret`, payload `eyJpZCI6IjAifQ==`. -/
theorem createSignature_spec_witness :
    createSignature (lit "test_secret") (lit "eyJpZCI6IjAifQ==") =
      lit "4b773ad252c6891113571613157c69705a8a5808516a2744fb89c3176e4e2c80" ∧
    (createSignature (lit "test_secret") (lit "eyJpZCI6IjAifQ==")).length = 64 :=
  ⟨((createSignature_spec (lit "test_secret") (lit "eyJpZCI6IjAifQ==")).1).trans (by decide!),
   (createSignature_spec (lit "test_secret") (lit "eyJpZCI6IjAifQ==")).2.1⟩

theorem verifySignature_eq_true (s p sig : GoString) :
    verifySignature s p sig = true ↔ sig = createSignature s p := by
  unfold verifySignature
  simp only [beq_iff_eq]
  exact eq_comm

/-- C2: `verifySignature s p sig` holds exactly when `sig` is the string `createSignature s p`;
so the signature just made is accepted, and every other string is rejected, among them
`invalid` and the upper-case form of the digest whenever that differs from the digest. -/
theorem verifySignature_iff (s p sig : GoString) :
    (verifySignature s p sig = true ↔ sig = createSignature s p) ∧
    verifySignature s p (createSignature s p) = true ∧
    (sig ≠ createSignature s p → verifySignature s p sig = false) ∧
    verifySignature s p (lit "invalid") = false ∧
    (asciiUpper (createSignature s p) ≠ createSignature s p →
      verifySignature s p (asciiUpper (createSignature s p)) = false) := by
  have key : ∀ x : GoString, x ≠ createSignature s p → verifySignature s p x = false := by
    intro x hx
    cases hv : verifySignature s p x with
    | false => rfl
    | true => exact absurd ((verifySignature_eq_true s p x).1 hv) hx
  refine ⟨verifySignature_eq_true s p sig, (verifySignature_eq_true s p _).2 rfl, key sig,
    key _ ?_, key _⟩
  intro h
  have hl := createSignature_length s p
  rw [← h] at hl
  revert hl
  decide

/-- The cases of `TestVerifySignature`, and the digest in upper case. -/
theorem verifySignature_iff_witness :
    verifySignature (lit "test_secret") (lit "eyJpZCI6IjAifQ==")
      (lit "4b773ad252c6891113571613157c69705a8a5808516a2744fb89c3176e4e2c80") = true ∧
    verifySignature (lit "test_secret") (lit "eyJpZCI6IjAifQ==")
      (lit "4B773AD252C6891113571613157C69705A8A5808516A2744FB89C3176E4E2C80") = false ∧
    verifySignature (lit "test_secret") (lit "eyJpZCI6IjAifQ==") (lit "invalid") = false :=
  ⟨(verifySignature_iff (lit "test_secret") (lit "eyJpZCI6IjAifQ==")
      (lit "4b773ad252c6891113571613157c69705a8a5808516a2744fb89c3176e4e2c80")).1.2 (by decide!),
   (verifySignature_iff (lit "test_secret") (lit "eyJpZCI6IjAifQ==")
      (lit "4B773AD252C6891113571613157C69705A8A5808516A2744FB89C3176E4E2C80")).2.2.1 (by decide!),
   (verifySignature_iff (lit "test_secret") (lit "eyJpZCI6IjAifQ==") []).2.2.2.1⟩

/-- C3, as stated, fails: `MTIzMA==` and `MA==` are the encoded payloads of the numbers 1230
and 0, and the signature made with the secret `k` for the first is accepted with the secret
`kMTIz` for the second, although both the secret and the payload differ: either pair
concatenates to `kMTIzMA==`. -/
theorem verifySignature_boundary_shift :
    encodePayload (.int 1230) = .ok (lit "MTIzMA==") ∧
    encodePayload (.int 0) = .ok (lit "MA==") ∧
    (lit "kMTIz" ≠ lit "k" ∨ lit "MA==" ≠ lit "MTIzMA==") ∧
    verifySignature (lit "kMTIz") (lit "MA==") (createSignature (lit "k") (lit "MTIzMA==")) =
      true := by
  refine ⟨by decide, by decide, Or.inl (by decide), ?_⟩
  rw [verifySignature_eq_true]
  rfl

/-- C3, amended: a signature made for `(s, p)` is accepted for `(s2, p2)` exactly when the
SHA-256 digests of `s2 ++ p2` and `s ++ p` are equal. It is therefore rejected whenever the two
digests differ, and accepted whenever the two concatenations are the same byte string. A change
of the secret alone, or of the payload alone, always changes the concatenation. -/
theorem verifySignature_other_pair (s s2 p p2 : GoString) :
    (verifySignature s2 p2 (createSignature s p) = true ↔ sha256 (s2 ++ p2) = sha256 (s ++ p)) ∧
    (sha256 (s2 ++ p2) ≠ sha256 (s ++ p) → verifySignature s2 p2 (createSignature s p) = false) ∧
    (s2 ++ p2 = s ++ p → verifySignature s2 p2 (createSignature s p) = true) ∧
    (s2 ≠ s → p2 = p → s2 ++ p2 ≠ s ++ p) ∧
    (s2 = s → p2 ≠ p → s2 ++ p2 ≠ s ++ p) := by
  have key : verifySignature s2 p2 (createSignature s p) = true ↔
      sha256 (s2 ++ p2) = sha256 (s ++ p) := by
    rw [verifySignature_eq_true]
    constructor
    · intro h
      exact (hexEncode_injective _ _ h).symm
    · intro h
      simp only [createSignature, h]
  refine ⟨key, ?_, ?_, ?_, ?_⟩
  · intro h
    cases hv : verifySignature s2 p2 (createSignature s p) with
    | false => rfl
    | true => exact absurd (key.1 hv) h
  · intro h
    exact key.2 (by rw [h])
  · intro hs hp h
    rw [hp] at h
    exact hs (List.append_cancel_right h)
  · intro hs hp h
    rw [hs] at h
    exact hp (List.append_cancel_left h)

/-- The wrong-secret case of `TestVerifySignature`. -/
theorem verifySignature_other_pair_witness :
    sha256 (lit "wrong_secret" ++ lit "eyJpZCI6IjAifQ==") ≠
      sha256 (lit "test_secret" ++ lit "eyJpZCI6IjAifQ==") ∧
    verifySignature (lit "wrong_secret") (lit "eyJpZCI6IjAifQ==")
      (createSignature (lit "test_secret") (lit "eyJpZCI6IjAifQ==")) = false :=
  ⟨by decide!,
   (verifySignature_other_pair (lit "test_secret") (lit "wrong_secret") (lit "eyJpZCI6IjAifQ==")
      (lit "eyJpZCI6IjAifQ==")).2.1 (by decide!)⟩

/-! ### Base64 -/

theorem base64Index_char (n : Nat) (h : n < 64) : base64Index (base64Char n) = some n := by
  interval_cases n <;> decide

theorem base64Char_ne_pad (n : Nat) (h : n < 64) : base64Char n ≠ base64Pad := by
  interval_cases n <;> decide

theorem base64Char_mem (n : Nat) (h : n < 64) : base64Char n ∈ base64Alphabet := by
  interval_cases n <;> decide

theorem base64_roundtrip (bs : List UInt8) : base64Decode (base64Encode bs) = some bs := by
  induction bs using base64Encode.induct with
  | case1 a b c rest ih =>
    have ha := toNat_lt a
    have hb := toNat_lt b
    have hc := toNat_lt c
    simp only [base64Encode, base64Decode]
    rw [if_neg (by
      rintro ⟨-, h⟩
      exact base64Char_ne_pad _ (by omega) h)]
    rw [base64Index_char _ (by omega), base64Index_char _ (by omega),
      base64Index_char _ (by omega), base64Index_char _ (by omega), ih]
    simp only [Option.some.injEq, List.cons.injEq, and_true]
    exact ⟨ofNat_eq _ _ (by omega), ofNat_eq _ _ (by omega), ofNat_eq _ _ (by omega)⟩
  | case2 a b =>
    have ha := toNat_lt a
    have hb := toNat_lt b
    simp only [base64Encode, base64Decode, and_self, if_true]
    rw [if_neg (base64Char_ne_pad _ (by omega))]
    rw [base64Index_char _ (by omega), base64Index_char _ (by omega),
      base64Index_char _ (by omega)]
    simp only [Option.some.injEq, List.cons.injEq, and_true]
    exact ⟨ofNat_eq _ _ (by omega), ofNat_eq _ _ (by omega)⟩
  | case3 a =>
    have ha := toNat_lt a
    simp only [base64Encode, base64Decode, and_self, if_true]
    rw [base64Index_char _ (by omega), base64Index_char _ (by omega)]
    simp only [Option.some.injEq, List.cons.injEq, and_true]
    exact ofNat_eq _ _ (by omega)
  | case4 => rfl

theorem base64Encode_length (bs : List UInt8) :
    (base64Encode bs).length = 4 * ((bs.length + 2) / 3) := by
  induction bs using base64Encode.induct with
  | case1 a b c rest ih =>
    simp only [base64Encode, List.length_cons, ih]
    omega
  | case2 a b => simp [base64Encode]
  | case3 a => simp [base64Encode]
  | case4 => rfl

theorem base64Encode_mem (bs : List UInt8) :
    ∀ c ∈ base64Encode bs, c ∈ base64Alphabet ∨ c = base64Pad := by
  induction bs using base64Encode.induct with
  | case1 a b c rest ih =>
    have ha := toNat_lt a
    have hb := toNat_lt b
    have hc := toNat_lt c
    intro x hx
    simp only [base64Encode, List.mem_cons] at hx
    rcases hx with rfl | rfl | rfl | rfl | hx
    · exact Or.inl (base64Char_mem _ (by omega))
    · exact Or.inl (base64Char_mem _ (by omega))
    · exact Or.inl (base64Char_mem _ (by omega))
    · exact Or.inl (base64Char_mem _ (by omega))
    · exact ih x hx
  | case2 a b =>
    have ha := toNat_lt a
    have hb := toNat_lt b
    intro x hx
    simp only [base64Encode, List.mem_cons, List.mem_singleton, List.not_mem_nil, or_false] at hx
    rcases hx with rfl | rfl | rfl | rfl
    · exact Or.inl (base64Char_mem _ (by omega))
    · exact Or.inl (base64Char_mem _ (by omega))
    · exact Or.inl (base64Char_mem _ (by omega))
    · exact Or.inr rfl
  | case3 a =>
    have ha := toNat_lt a
    intro x hx
    simp only [base64Encode, List.mem_cons, List.mem_singleton, List.not_mem_nil, or_false] at hx
    rcases hx with rfl | rfl | rfl | rfl
    · exact Or.inl (base64Char_mem _ (by omega))
    · exact Or.inl (base64Char_mem _ (by omega))
    · exact Or.inr rfl
    · exact Or.inr rfl
  | case4 =>
    intro x hx
    simp [base64Encode] at hx

theorem base64Encode_ne_nil (bs : List UInt8) (h : bs ≠ []) : base64Encode bs ≠ [] := by
  match bs, h with
  | [_], _ => simp [base64Encode]
  | [_, _], _ => simp [base64Encode]
  | _ :: _ :: _ :: _, _ => simp [base64Encode]

/-! ### JSON serialization -/

theorem toDigitsCore_ne_nil (fuel n : Nat) (ds : List Char) (h : ds ≠ []) :
    Nat.toDigitsCore 10 fuel n ds ≠ [] := by
  induction fuel generalizing n ds with
  | zero => simpa [Nat.toDigitsCore] using h
  | succ k ih =>
    simp only [Nat.toDigitsCore]
    split
    · simp
    · exact ih _ _ (by simp)

theorem toDigits_ne_nil (n : Nat) : Nat.toDigits 10 n ≠ [] := by
  simp only [Nat.toDigits, Nat.toDigitsCore]
  split
  · simp
  · exact toDigitsCore_ne_nil _ _ _ (by simp)

theorem formatInt_ne_nil (i : Int) : formatInt i ≠ [] := by
  simp [formatInt, toDigits_ne_nil]

theorem jsonQuote_ne_nil (s : GoString) : jsonQuote s ≠ [] := by
  simp [jsonQuote, lit, utf8EncodeRune]

theorem jsonMarshal_ne_nil : ∀ (v : GoValue) (bytes : List UInt8),
    jsonMarshal v = .ok bytes → bytes ≠ []
  | .nil, bytes, h => by
    simp only [jsonMarshal, Except.ok.injEq] at h
    subst h; decide
  | .bool b, bytes, h => by
    simp only [jsonMarshal, Except.ok.injEq] at h
    subst h; cases b <;> decide
  | .int n, bytes, h => by
    simp only [jsonMarshal, Except.ok.injEq] at h
    subst h; exact formatInt_ne_nil n
  | .string s, bytes, h => by
    simp only [jsonMarshal, Except.ok.injEq] at h
    subst h; exact jsonQuote_ne_nil s
  | .ptr v, bytes, h => by
    simp only [jsonMarshal] at h
    exact jsonMarshal_ne_nil v bytes h
  | .slice xs, bytes, h => by
    simp only [jsonMarshal] at h
    split at h
    · simp only [Except.ok.injEq] at h
      subst h; simp [lit, utf8EncodeRune]
    · cases h
  | .map es, bytes, h => by
    simp only [jsonMarshal] at h
    split at h
    · simp only [Except.ok.injEq] at h
      subst h; simp [lit, utf8EncodeRune]
    · cases h
  | .struct fs, bytes, h => by
    simp only [jsonMarshal] at h
    split at h
    · simp only [Except.ok.injEq] at h
      subst h; simp [lit, utf8EncodeRune]
    · cases h
  | .unsupported, bytes, h => by
    simp only [jsonMarshal] at h
    cases h

theorem encodePayload_of_marshal (payload : GoValue) (bytes : List UInt8)
    (h : jsonMarshal payload = .ok bytes) : encodePayload payload = .ok (base64Encode bytes) := by
  simp only [encodePayload, h]

/-! ### Map iteration order and `json.Marshal` -/

theorem bytesLt_irrefl : ∀ a : List UInt8, bytesLt a a = false
  | [] => rfl
  | a :: as => by simp [bytesLt, bytesLt_irrefl as]

theorem bytesLt_trans : ∀ {a b c : List UInt8},
    bytesLt a b = true → bytesLt b c = true → bytesLt a c = true
  | _, [], _, h, _ => by simp [bytesLt] at h
  | _, _ :: _, [], _, h => by simp [bytesLt] at h
  | [], _ :: _, _ :: _, _, _ => by simp [bytesLt]
  | a :: as, b :: bs, c :: cs, h1, h2 => by
    simp only [bytesLt, Bool.or_eq_true, decide_eq_true_eq, Bool.and_eq_true, beq_iff_eq] at *
    rcases h1 with h1 | ⟨h1, t1⟩
    · rcases h2 with h2 | ⟨h2, _⟩
      · exact Or.inl (by omega)
      · subst h2
        exact Or.inl h1
    · subst h1
      rcases h2 with h2 | ⟨h2, t2⟩
      · exact Or.inl h2
      · exact Or.inr ⟨h2, bytesLt_trans t1 t2⟩

theorem bytesLt_total : ∀ {a b : List UInt8}, a ≠ b → bytesLt a b = true ∨ bytesLt b a = true
  | [], [], h => absurd rfl h
  | [], _ :: _, _ => by simp [bytesLt]
  | _ :: _, [], _ => by simp [bytesLt]
  | a :: as, b :: bs, h => by
    simp only [bytesLt, Bool.or_eq_true, decide_eq_true_eq, Bool.and_eq_true, beq_iff_eq]
    by_cases hab : a = b
    · subst hab
      have ht : as ≠ bs := fun e => h (by rw [e])
      rcases bytesLt_total ht with t | t
      · exact Or.inl (Or.inr ⟨rfl, t⟩)
      · exact Or.inr (Or.inr ⟨rfl, t⟩)
    · have hn : a.toNat ≠ b.toNat := fun e => hab (UInt8.toNat.inj e)
      rcases Nat.lt_or_gt_of_ne hn with t | t
      · exact Or.inl (Or.inl t)
      · exact Or.inr (Or.inl t)

theorem bytesLt_asymm {a b : List UInt8} (h : bytesLt a b = true) : bytesLt b a = false := by
  cases hb : bytesLt b a with
  | false => rfl
  | true =>
    have := bytesLt_trans h hb
    rw [bytesLt_irrefl] at this
    cases this

theorem insertByKey_perm (e : GoString × List UInt8) :
    ∀ xs : List (GoString × List UInt8), (insertByKey e xs).Perm (e :: xs)
  | [] => List.Perm.refl _
  | x :: xs => by
    simp only [insertByKey]
    split
    · exact List.Perm.refl _
    · exact ((insertByKey_perm e xs).cons x).trans (List.Perm.swap e x xs)

theorem sortByKey_perm : ∀ xs : List (GoString × List UInt8), (sortByKey xs).Perm xs
  | [] => List.Perm.refl _
  | x :: xs => by
    simp only [sortByKey]
    exact (insertByKey_perm x _).trans ((sortByKey_perm xs).cons x)

theorem insertByKey_sorted (e : GoString × List UInt8) :
    ∀ xs : List (GoString × List UInt8),
      xs.Pairwise (fun a b => bytesLt a.1 b.1 = true) → (∀ x ∈ xs, x.1 ≠ e.1) →
      (insertByKey e xs).Pairwise (fun a b => bytesLt a.1 b.1 = true)
  | [], _, _ => by simp [insertByKey]
  | x :: xs, hs, hne => by
    have hx := List.pairwise_cons.1 hs
    simp only [insertByKey]
    split
    · rename_i hlt
      refine List.pairwise_cons.2 ⟨?_, hs⟩
      intro y hy
      rcases List.mem_cons.1 hy with rfl | hy
      · exact hlt
      · exact bytesLt_trans hlt (hx.1 y hy)
    · rename_i hlt
      have hxe : bytesLt x.1 e.1 = true := by
        rcases bytesLt_total (hne x (List.mem_cons_self _ _)) with t | t
        · exact t
        · exact absurd t hlt
      refine List.pairwise_cons.2 ⟨?_, insertByKey_sorted e xs hx.2
        (fun y hy => hne y (List.mem_cons_of_mem _ hy))⟩
      intro y hy
      rcases List.mem_cons.1 ((insertByKey_perm e xs).subset hy) with rfl | hy
      · exact hxe
      · exact hx.1 y hy

theorem sortByKey_sorted : ∀ xs : List (GoString × List UInt8), (xs.map Prod.fst).Nodup →
    (sortByKey xs).Pairwise (fun a b => bytesLt a.1 b.1 = true)
  | [], _ => by simp [sortByKey]
  | x :: xs, hn => by
    simp only [List.map_cons, List.nodup_cons] at hn
    simp only [sortByKey]
    refine insertByKey_sorted x _ (sortByKey_sorted xs hn.2) ?_
    intro y hy e
    exact hn.1 (e ▸ List.mem_map_of_mem Prod.fst ((sortByKey_perm xs).subset hy))

theorem sortByKey_eq_of_perm {p q : List (GoString × List UInt8)} (h : p.Perm q)
    (hn : (p.map Prod.fst).Nodup) : sortByKey p = sortByKey q := by
  haveI : IsAntisymm (GoString × List UInt8) (fun a b => bytesLt a.1 b.1 = true) :=
    ⟨fun a b h1 h2 => by
      rw [bytesLt_asymm h1] at h2
      cases h2⟩
  have hq : (q.map Prod.fst).Nodup := ((h.map Prod.fst).nodup_iff).1 hn
  exact List.eq_of_perm_of_sorted
    (((sortByKey_perm p).trans h).trans (sortByKey_perm q).symm)
    (sortByKey_sorted p hn) (sortByKey_sorted q hq)

theorem marshalEntries_keys : ∀ (es : List (GoString × GoValue))
    (p : List (GoString × List UInt8)), marshalEntries es = .ok p →
    p.map Prod.fst = es.map Prod.fst
  | [], p, h => by
    simp only [marshalEntries, Except.ok.injEq] at h
    subst h
    rfl
  | (k, v) :: rest, p, h => by
    simp only [marshalEntries] at h
    split at h
    · rename_i a r ha hr
      simp only [Except.ok.injEq] at h
      subst h
      simp only [List.map_cons, marshalEntries_keys rest r hr]
    · cases h
    · cases h

theorem marshalEntries_cons (k : GoString) (v : GoValue) (rest : List (GoString × GoValue)) :
    marshalEntries ((k, v) :: rest) =
      match jsonMarshal v with
      | .error e => .error e
      | .ok a =>
        match marshalEntries rest with
        | .error e => .error e
        | .ok r => .ok ((k, a) :: r) := by
  simp only [marshalEntries]
  cases jsonMarshal v <;> cases marshalEntries rest <;> rfl

theorem marshalError_eq (e1 e2 : MarshalError) : e1 = e2 := by
  cases e1
  cases e2
  rfl

theorem perm_error_case (e1 e2 : MarshalError) :
    (∀ p : List (GoString × List UInt8),
      (Except.error e1 : Except MarshalError (List (GoString × List UInt8))) = .ok p →
      ∃ q, (Except.error e2 : Except MarshalError (List (GoString × List UInt8))) = .ok q ∧
        p.Perm q) ∧
    (∀ e, (Except.error e1 : Except MarshalError (List (GoString × List UInt8))) = .error e →
      (Except.error e2 : Except MarshalError (List (GoString × List UInt8))) = .error e) := by
  refine ⟨?_, ?_⟩
  · intro p hp
    cases hp
  · intro e _
    rw [marshalError_eq e2 e]

/-- The outcomes of serializing two entry lists agree up to the order of the entries. -/
theorem marshalEntries_perm {fs gs : List (GoString × GoValue)} (h : fs.Perm gs) :
    (∀ p, marshalEntries fs = .ok p → ∃ q, marshalEntries gs = .ok q ∧ p.Perm q) ∧
    (∀ e, marshalEntries fs = .error e → marshalEntries gs = .error e) := by
  induction h with
  | nil =>
    refine ⟨?_, ?_⟩
    · intro p hp
      exact ⟨p, hp, List.Perm.refl _⟩
    · intro e he
      exact he
  | @cons x l1 l2 _ ih =>
    obtain ⟨k, v⟩ := x
    rw [marshalEntries_cons, marshalEntries_cons]
    cases ha : jsonMarshal v with
    | error e1 => exact perm_error_case _ _
    | ok a =>
      cases hr : marshalEntries l1 with
      | error e2 =>
        rw [ih.2 e2 hr]
        exact perm_error_case _ _
      | ok r =>
        obtain ⟨q, hq, hpq⟩ := ih.1 r hr
        rw [hq]
        refine ⟨?_, ?_⟩
        · intro p hp
          simp only [Except.ok.injEq] at hp
          subst hp
          exact ⟨_, rfl, hpq.cons _⟩
        · intro e he
          cases he
  | swap x y l =>
    obtain ⟨k1, v1⟩ := x
    obtain ⟨k2, v2⟩ := y
    simp only [marshalEntries_cons]
    cases h1 : jsonMarshal v1 with
    | error e1 =>
      cases h2 : jsonMarshal v2 with
      | error e2 => exact perm_error_case _ _
      | ok a2 =>
        cases hl : marshalEntries l with
        | error e3 => exact perm_error_case _ _
        | ok r => exact perm_error_case _ _
    | ok a1 =>
      cases h2 : jsonMarshal v2 with
      | error e2 =>
        cases hl : marshalEntries l with
        | error e3 => exact perm_error_case _ _
        | ok r => exact perm_error_case _ _
      | ok a2 =>
        cases hl : marshalEntries l with
        | error e3 => exact perm_error_case _ _
        | ok r =>
          refine ⟨?_, ?_⟩
          · intro p hp
            simp only [Except.ok.injEq] at hp
            subst hp
            exact ⟨_, rfl, List.Perm.swap _ _ _⟩
          · intro e he
            cases he
  | trans _ _ ih1 ih2 =>
    refine ⟨?_, ?_⟩
    · intro p hp
      obtain ⟨q, hq, hpq⟩ := ih1.1 p hp
      obtain ⟨r, hr, hqr⟩ := ih2.1 q hq
      exact ⟨r, hr, hpq.trans hqr⟩
    · intro e he
      exact ih2.2 e (ih1.2 e he)

theorem sameElems_length : ∀ {xs ys : List GoValue}, SameElems xs ys → xs.length = ys.length
  | _, _, .nil => rfl
  | _, _, .cons _ t => by simp only [List.length_cons, sameElems_length t]

theorem sameEntries_length : ∀ {es fs : List (GoString × GoValue)}, SameEntries es fs →
    es.length = fs.length
  | _, _, .nil => rfl
  | _, _, .cons _ t => by simp only [List.length_cons, sameEntries_length t]

theorem isEmpty_of_length {α β : Type} {xs : List α} {ys : List β}
    (h : xs.length = ys.length) : xs.isEmpty = ys.isEmpty := by
  cases xs <;> cases ys <;> simp_all

theorem isEmptyValue_same {v w : GoValue} (h : SameValue v w) :
    isEmptyValue v = isEmptyValue w := by
  cases h with
  | nil => rfl
  | bool b => rfl
  | int n => rfl
  | string s => rfl
  | ptr _ => rfl
  | slice t => simp only [isEmptyValue, isEmpty_of_length (sameElems_length t)]
  | map t hp _ =>
    simp only [isEmptyValue, isEmpty_of_length ((sameEntries_length t).trans hp.length_eq)]
  | struct _ => rfl
  | unsupported => rfl

mutual
theorem jsonMarshal_same : ∀ {x y : GoValue}, SameValue x y → jsonMarshal x = jsonMarshal y
  | _, _, .nil => rfl
  | _, _, .bool _ => rfl
  | _, _, .int _ => rfl
  | _, _, .string _ => rfl
  | _, _, .ptr h => by
    simp only [jsonMarshal]
    exact jsonMarshal_same h
  | _, _, .slice h => by simp only [jsonMarshal, marshalElems_same h]
  | _, _, @SameValue.map es fs _ h hp hn => by
    have h1 : marshalEntries es = marshalEntries fs := marshalEntries_same h
    simp only [jsonMarshal, h1]
    cases hf : marshalEntries fs with
    | error e => simp only [(marshalEntries_perm hp).2 e hf]
    | ok p =>
      obtain ⟨q, hq, hpq⟩ := (marshalEntries_perm hp).1 p hf
      have hk : (p.map Prod.fst).Nodup := by
        rw [marshalEntries_keys es p (h1.trans hf)]
        exact hn
      simp only [hq, sortByKey_eq_of_perm hpq hk]
  | _, _, .struct h => by simp only [jsonMarshal, marshalFields_same h]
  | _, _, .unsupported => rfl
theorem marshalElems_same : ∀ {xs ys : List GoValue}, SameElems xs ys →
    marshalElems xs = marshalElems ys
  | _, _, .nil => rfl
  | _, _, .cons h t => by simp only [marshalElems, jsonMarshal_same h, marshalElems_same t]
theorem marshalEntries_same : ∀ {es fs : List (GoString × GoValue)}, SameEntries es fs →
    marshalEntries es = marshalEntries fs
  | _, _, .nil => rfl
  | _, _, .cons h t => by simp only [marshalEntries, jsonMarshal_same h, marshalEntries_same t]
theorem marshalFields_same : ∀ {fs gs : List (GoString × Bool × GoValue)}, SameFields fs gs →
    marshalFields fs = marshalFields gs
  | _, _, .nil => rfl
  | _, _, .cons h t => by
    simp only [marshalFields, jsonMarshal_same h, marshalFields_same t, isEmptyValue_same h]
end

/-! ### Payload encoding and headers (auth.go) -/

/-- C4: `encodePayload` applied to the one-entry map `{"id": "0"}` succeeds with exactly
`eyJpZCI6IjAifQ==`, the padded base64 text of the ten bytes `{"id":"0"}`. -/
theorem encodePayload_id_zero :
    encodePayload (.map [(lit "id", .string (lit "0"))]) = .ok (lit "eyJpZCI6IjAifQ==") ∧
    jsonMarshal (.map [(lit "id", .string (lit "0"))]) = .ok (lit "\x7b\"id\":\"0\"\x7d") ∧
    (lit "\x7b\"id\":\"0\"\x7d").length = 10 ∧
    base64Encode (lit "\x7b\"id\":\"0\"\x7d") = lit "eyJpZCI6IjAifQ==" := by
  decide

/-- C5: when `json.Marshal` succeeds on the payload, with bytes `bytes`, `encodePayload` succeeds
and returns the standard base64 text of `bytes`: four characters, drawn from the RFC 4648
alphabet and the padding character, for every three bytes begun. Decoding the text gives `bytes`
back, and the text is not empty. -/
theorem encodePayload_base64 (payload : GoValue) (bytes : List UInt8)
    (h : jsonMarshal payload = .ok bytes) :
    encodePayload payload = .ok (base64Encode bytes) ∧
    base64Decode (base64Encode bytes) = some bytes ∧
    (base64Encode bytes).length = 4 * ((bytes.length + 2) / 3) ∧
    (∀ c ∈ base64Encode bytes, c ∈ base64Alphabet ∨ c = base64Pad) ∧
    base64Encode bytes ≠ [] :=
  ⟨encodePayload_of_marshal payload bytes h, base64_roundtrip bytes, base64Encode_length bytes,
    base64Encode_mem bytes, base64Encode_ne_nil bytes (jsonMarshal_ne_nil payload bytes h)⟩

/-- The complex payload of `TestEncodePayload`: a name and a count. -/
theorem encodePayload_base64_witness :
    encodePayload (.map [(lit "name", .string (lit "test")), (lit "count", .int 5)]) =
      .ok (lit "eyJjb3VudCI6NSwibmFtZSI6InRlc3QifQ==") ∧
    base64Decode (lit "eyJjb3VudCI6NSwibmFtZSI6InRlc3QifQ==") =
      some (lit "\x7b\"count\":5,\"name\":\"test\"\x7d") := by
  have h := encodePayload_base64 (.map [(lit "name", .string (lit "test")), (lit "count", .int 5)])
    (lit "\x7b\"count\":5,\"name\":\"test\"\x7d") (by decide)
  have e : base64Encode (lit "\x7b\"count\":5,\"name\":\"test\"\x7d") =
      lit "eyJjb3VudCI6NSwibmFtZSI6InRlc3QifQ==" := by decide
  rw [e] at h
  exact ⟨h.1, h.2.1⟩

theorem encodePayload_default : encodePayload defaultPayload = .ok (lit "eyJpZCI6IjAifQ==") := by
  decide

/-- C6: with a nil payload `createAuthHeaders` returns the header map it returns for the map
`{"id": "0"}`, and `createGetAuthHeaders` returns the headers and encoded payload it returns for
that map; in both nil cases the payload signed is `eyJpZCI6IjAifQ==`. -/
theorem createAuthHeaders_nil (a s : GoString) :
    createAuthHeaders a s none =
      createAuthHeaders a s (some (.map [(lit "id", .string (lit "0"))])) ∧
    createGetAuthHeaders a s none =
      createGetAuthHeaders a s (some [(lit "id", .string (lit "0"))]) ∧
    createAuthHeaders a s none =
      .ok [(lit "X-ACCT-ID", a),
           (lit "X-PAYLOAD-SIG", createSignature s (lit "eyJpZCI6IjAifQ==")),
           (lit "Content-Type", lit "application/json")] ∧
    createGetAuthHeaders a s none =
      .ok ([(lit "X-ACCT-ID", a),
            (lit "X-PAYLOAD-SIG", createSignature s (lit "eyJpZCI6IjAifQ==")),
            (lit "Content-Type", lit "application/json")], lit "eyJpZCI6IjAifQ==") := by
  have e := encodePayload_default
  refine ⟨rfl, rfl, ?_, ?_⟩
  · simp only [createAuthHeaders, e]
  · simp only [createGetAuthHeaders]
    rw [show GoValue.map [(lit "id", GoValue.string (lit "0"))] = defaultPayload from rfl, e]

/-- C7, as stated, fails: when the account identifier is the same string as the secret, here
`k` for both, the `X-ACCT-ID` header carries the secret. -/
theorem createAuthHeaders_secret_in_header :
    (createAuthHeaders (lit "k") (lit "k") (some (.map [(lit "test", .string (lit "data"))]))).map
      (fun h => h.get (lit "X-ACCT-ID")) = .ok (lit "k") := by
  decide!

/-- C7, amended: for a payload that is not nil and on which `json.Marshal` succeeds,
`createAuthHeaders` succeeds with exactly the three entries `X-ACCT-ID`, the account identifier
verbatim, `X-PAYLOAD-SIG`, the non-empty signature of the encoded payload, and `Content-Type`,
`application/json`. The secret is the value of a header only when it is the same string as the
account identifier, as its own signature, or as `application/json`. -/
theorem createAuthHeaders_spec (a s : GoString) (x : GoValue) (bytes : List UInt8)
    (hx : jsonMarshal x = .ok bytes) :
    encodePayload x = .ok (base64Encode bytes) ∧
    createAuthHeaders a s (some x) =
      .ok [(lit "X-ACCT-ID", a),
           (lit "X-PAYLOAD-SIG", createSignature s (base64Encode bytes)),
           (lit "Content-Type", lit "application/json")] ∧
    createSignature s (base64Encode bytes) ≠ [] ∧
    ∀ h : Headers, createAuthHeaders a s (some x) = .ok h →
      h.length = 3 ∧
      h.get (lit "X-ACCT-ID") = a ∧
      h.get (lit "X-PAYLOAD-SIG") = createSignature s (base64Encode bytes) ∧
      h.get (lit "Content-Type") = lit "application/json" ∧
      ((∃ kv ∈ h, kv.2 = s) ↔
        (s = a ∨ s = createSignature s (base64Encode bytes) ∨ s = lit "application/json")) := by
  have e := encodePayload_of_marshal x bytes hx
  have hh : createAuthHeaders a s (some x) =
      .ok [(lit "X-ACCT-ID", a),
           (lit "X-PAYLOAD-SIG", createSignature s (base64Encode bytes)),
           (lit "Content-Type", lit "application/json")] := by
    simp only [createAuthHeaders, e]
  refine ⟨e, hh, createSignature_ne_nil _ _, ?_⟩
  intro h hok
  rw [hh] at hok
  injection hok with hok
  subst hok
  refine ⟨rfl, ?_, ?_, ?_, ?_⟩
  · simp [Headers.get, List.find?]
  · have h1 : (lit "X-ACCT-ID" == lit "X-PAYLOAD-SIG") = false := by decide
    simp [Headers.get, List.find?, h1]
  · have h1 : (lit "X-ACCT-ID" == lit "Content-Type") = false := by decide
    have h2 : (lit "X-PAYLOAD-SIG" == lit "Content-Type") = false := by decide
    simp [Headers.get, List.find?, h1, h2]
  · simp only [List.mem_cons, List.mem_singleton, List.not_mem_nil, or_false, exists_eq_or_imp,
      exists_eq_left]
    constructor
    · rintro (h | h | h)
      · exact Or.inl h.symm
      · exact Or.inr (Or.inl h.symm)
      · exact Or.inr (Or.inr h.symm)
    · rintro (h | h | h)
      · exact Or.inl h.symm
      · exact Or.inr (Or.inl h.symm)
      · exact Or.inr (Or.inr h.symm)

/-- The payload of `TestCreateAuthHeaders`, for an account identifier that is not the secret. -/
theorem createAuthHeaders_spec_witness :
    createAuthHeaders (lit "test_account") (lit "test_secret")
        (some (.map [(lit "test", .string (lit "data"))])) =
      .ok [(lit "X-ACCT-ID", lit "test_account"),
           (lit "X-PAYLOAD-SIG",
             createSignature (lit "test_secret") (base64Encode (lit "\x7b\"test\":\"data\"\x7d"))),
           (lit "Content-Type", lit "application/json")] :=
  (createAuthHeaders_spec (lit "test_account") (lit "test_secret")
    (.map [(lit "test", .string (lit "data"))]) (lit "\x7b\"test\":\"data\"\x7d") (by decide)).2.1

theorem values_get_set (v : Values) (key value : GoString) : (v.Set key value).Get key = value := by
  simp [Values.Set, Values.Get, List.find?]

/-- C8: for a filter map on which `json.Marshal` succeeds (the map `{"id": "0"}` standing in for
a nil map), `createGetAuthHeaders` returns headers and a non-empty encoded payload `e`, the base64
text of the serialized map, such that `verifySignature` accepts the `X-PAYLOAD-SIG` header for
`e`; and the request that `Get` builds, once the URL parses, carries these headers and has `e` as
its `sig_payload` query parameter. -/
theorem createGetAuthHeaders_signed (a s : GoString) (m : Option (List (GoString × GoValue)))
    (bytes : List UInt8)
    (hm : jsonMarshal (.map (m.getD [(lit "id", .string (lit "0"))])) = .ok bytes) :
    ∃ h : Headers,
      createGetAuthHeaders a s m = .ok (h, base64Encode bytes) ∧
      base64Encode bytes ≠ [] ∧
      verifySignature s (base64Encode bytes) (h.get (lit "X-PAYLOAD-SIG")) = true ∧
      ∀ (env : Env) (baseURL path : GoString) (timeout : Int) (u : ParsedURL),
        env.urlParse (baseURL ++ path) = .ok u →
        ∃ req : Request,
          (NewHTTPClient a s baseURL timeout).getRequest env path m = .ok req ∧
          req.header = h ∧ req.url.query.Get (lit "sig_payload") = base64Encode bytes := by
  have hne : base64Encode bytes ≠ [] := base64Encode_ne_nil bytes (jsonMarshal_ne_nil _ bytes hm)
  have e : encodePayload (.map (m.getD [(lit "id", .string (lit "0"))])) =
      .ok (base64Encode bytes) := encodePayload_of_marshal _ bytes hm
  have hh : createGetAuthHeaders a s m =
      .ok ([(lit "X-ACCT-ID", a),
            (lit "X-PAYLOAD-SIG", createSignature s (base64Encode bytes)),
            (lit "Content-Type", lit "application/json")], base64Encode bytes) := by
    cases m with
    | none =>
      simp only [Option.getD] at e
      simp only [createGetAuthHeaders, e]
    | some es =>
      simp only [Option.getD] at e
      simp only [createGetAuthHeaders, e]
  refine ⟨_, hh, hne, ?_, ?_⟩
  · rw [verifySignature_eq_true]
    have h1 : (lit "X-ACCT-ID" == lit "X-PAYLOAD-SIG") = false := by decide
    simp [Headers.get, List.find?, h1]
  · intro env baseURL path timeout u hu
    refine ⟨{ method := lit "GET",
              url := { u with query := u.query.Set (lit "sig_payload") (base64Encode bytes) },
              header := [(lit "X-ACCT-ID", a),
                (lit "X-PAYLOAD-SIG", createSignature s (base64Encode bytes)),
                (lit "Content-Type", lit "application/json")],
              body := none }, ?_, rfl,
      values_get_set u.query (lit "sig_payload") (base64Encode bytes)⟩
    simp only [HTTPClient.getRequest, NewHTTPClient, hh, hu, ne_eq, hne, not_false_eq_true,
      if_true]

/-- The filter map of `TestCreateGetAuthHeaders`, `{"id": "123"}`: the encoded payload is
`eyJpZCI6IjEyMyJ9` and the signature in the headers verifies for it. -/
theorem createGetAuthHeaders_signed_witness :
    ∃ h : Headers,
      createGetAuthHeaders (lit "test_account") (lit "test_secret")
        (some [(lit "id", .string (lit "123"))]) = .ok (h, lit "eyJpZCI6IjEyMyJ9") ∧
      verifySignature (lit "test_secret") (lit "eyJpZCI6IjEyMyJ9")
        (h.get (lit "X-PAYLOAD-SIG")) = true := by
  have w := createGetAuthHeaders_signed (lit "test_account") (lit "test_secret")
    (some [(lit "id", .string (lit "123"))]) (lit "\x7b\"id\":\"123\"\x7d") (by decide)
  have e : base64Encode (lit "\x7b\"id\":\"123\"\x7d") = lit "eyJpZCI6IjEyMyJ9" := by decide
  rw [e] at w
  obtain ⟨h, h1, -, h3, -⟩ := w
  exact ⟨h, h1, h3⟩

/-! ### Response handling (http_client.go) -/

theorem decodeDataMembers_none (ms : List (GoString × JSON)) (acc : Option JSON)
    (h : ∀ kv ∈ ms, fieldMatches (lit "data") kv.1 = false) : decodeDataMembers ms acc = acc := by
  induction ms generalizing acc with
  | nil => rfl
  | cons kv rest ih =>
    obtain ⟨k, v⟩ := kv
    have hk : fieldMatches (lit "data") k = false := h (k, v) (List.mem_cons_self _ _)
    simp only [decodeDataMembers, hk, Bool.false_eq_true, if_false]
    exact ih acc (fun kv hkv => h kv (List.mem_cons_of_mem _ hkv))

theorem status_ok (status : Int) (hs : 200 ≤ status ∧ status < 300) :
    ¬ (status < 200 ∨ status ≥ 300) := by omega

/-- C9, as stated, fails: the JSON object `{"data":{"id":"x"}}` sent bare is taken for an
envelope and decodes to its `data` member, while the same object inside `{"data": ...}` decodes
to the whole object. The target is a `*interface{}`. -/
theorem handleResponse_data_member :
    jsonScan (lit "\x7b\"data\":\x7b\"id\":\"x\"\x7d\x7d") =
      some (.object [(lit "data", .object [(lit "id", .string (lit "x"))])]) ∧
    (handleResponse 200 (wrapData (lit "\x7b\"data\":\x7b\"id\":\"x\"\x7d\x7d"))
      (some anyTarget)).value =
      some (.object [(lit "data", .object [(lit "id", .string (lit "x"))])]) ∧
    (handleResponse 200 (lit "\x7b\"data\":\x7b\"id\":\"x\"\x7d\x7d") (some anyTarget)).value =
      some (.object [(lit "id", .string (lit "x"))]) ∧
    (handleResponse 200 (wrapData (lit "\x7b\"data\":\x7b\"id\":\"x\"\x7d\x7d"))
      (some anyTarget)).value ≠
    (handleResponse 200 (lit "\x7b\"data\":\x7b\"id\":\"x\"\x7d\x7d") (some anyTarget)).value := by
  have h1 : (handleResponse 200 (wrapData (lit "\x7b\"data\":\x7b\"id\":\"x\"\x7d\x7d"))
      (some anyTarget)).value =
      some (.object [(lit "data", .object [(lit "id", .string (lit "x"))])]) := by rfl
  have h2 : (handleResponse 200 (lit "\x7b\"data\":\x7b\"id\":\"x\"\x7d\x7d")
      (some anyTarget)).value = some (.object [(lit "id", .string (lit "x"))]) := by rfl
  refine ⟨by rfl, h1, h2, ?_⟩
  rw [h1, h2]
  intro h
  have hk := congrArg (fun o : Option JSON =>
    match o with
    | some (.object (kv :: _)) => kv.1
    | _ => []) h
  revert hk
  decide

/-- C9, amended: take a status in [200,300), a non-nil result of any type, and a JSON object `v`
none of whose members is named `data` (in any letter case). A body that scans to the object with
the one member `data` holding `v` and a body that scans to `v` itself leave in the result the same
value, the one that decoding `v` leaves there, and one fails exactly when the other does: with the
error of decoding `v`, wrapped as `failed to unmarshal data field` for the envelope and as
`failed to unmarshal response` for the bare body. -/
theorem handleResponse_envelope {R : Type} (status : Int) (t : Target R) (enveloped bare : GoString)
    (ms : List (GoString × JSON))
    (hs : 200 ≤ status ∧ status < 300)
    (hv : jsonScan bare = some (.object ms))
    (hw : jsonScan enveloped = some (.object [(lit "data", .object ms)]))
    (hnd : ∀ kv ∈ ms, fieldMatches (lit "data") kv.1 = false) :
    (handleResponse status enveloped (some t)).value =
      (handleResponse status bare (some t)).value ∧
    ((handleResponse status enveloped (some t)).err = none ↔
      (handleResponse status bare (some t)).err = none) ∧
    (handleResponse status bare (some t)).value = some (t.decode (.object ms)).1 ∧
    (handleResponse status enveloped (some t)).err =
      (t.decode (.object ms)).2.map (GoError.wrap (lit "failed to unmarshal data field")) ∧
    (handleResponse status bare (some t)).err =
      (t.decode (.object ms)).2.map (GoError.wrap (lit "failed to unmarshal response")) := by
  have hst := status_ok status hs
  have hd : fieldMatches (lit "data") (lit "data") = true := by decide
  have e1 : handleResponse status enveloped (some t) =
      ⟨some (t.decode (.object ms)).1,
       (t.decode (.object ms)).2.map (GoError.wrap (lit "failed to unmarshal data field"))⟩ := by
    simp only [handleResponse, hst, if_false, unmarshalDataResp, hw, decodeDataMembers, hd,
      if_true]
    cases hdec : t.decode (.object ms) with
    | mk r e => cases e <;> rfl
  have e2 : handleResponse status bare (some t) =
      ⟨some (t.decode (.object ms)).1,
       (t.decode (.object ms)).2.map (GoError.wrap (lit "failed to unmarshal response"))⟩ := by
    simp only [handleResponse, hst, if_false, unmarshalDataResp, hv,
      decodeDataMembers_none ms none hnd, jsonUnmarshal]
    cases hdec : t.decode (.object ms) with
    | mk r e => cases e <;> rfl
  rw [e1, e2]
  refine ⟨rfl, ?_, rfl, rfl, rfl⟩
  cases (t.decode (.object ms)).2 <;> simp

/-- The bare object `{"id":"x"}` and the body `{"data":{"id":"x"}}`, decoded into a
`*interface{}`. -/
theorem handleResponse_envelope_witness :
    (handleResponse 200 (wrapData (lit "\x7b\"id\":\"x\"\x7d")) (some anyTarget)).value =
      (handleResponse 200 (lit "\x7b\"id\":\"x\"\x7d") (some anyTarget)).value ∧
    (handleResponse 200 (lit "\x7b\"id\":\"x\"\x7d") (some anyTarget)).value =
      some (.object [(lit "id", .string (lit "x"))]) :=
  have w := handleResponse_envelope 200 anyTarget (wrapData (lit "\x7b\"id\":\"x\"\x7d"))
    (lit "\x7b\"id\":\"x\"\x7d") [(lit "id", .string (lit "x"))] (by decide) (by rfl) (by rfl)
    (by decide)
  ⟨w.1, w.2.2.1⟩

/-- C10: for a status code `c` outside [200,300) and any body `b`, the response handling of
`doRequest` fails with the error text `Wusul API Error (c): m`, `c` in decimal, where `m` is the
`error` field of the body when that is not empty, otherwise its `message` field when that is not
empty, and otherwise the raw body (also when the body does not decode into two string fields);
whatever `result` points to is left as it was. For a body that is the object of two strings
`error` and `message` the choice is made on those two strings, and a body that is not JSON is its
own message. So status 400
with body `{"error":"bad request"}` gives `Wusul API Error (400): bad request`, and the `error`
field wins over a non-empty `message` field. -/
theorem handleResponse_api_error {R : Type} (c : Int) (b : GoString) (result : Option (Target R))
    (hc : c < 200 ∨ c ≥ 300) :
    (handleResponse c b result).err =
      some (.text (lit "Wusul API Error (" ++ formatInt c ++ lit "): " ++ apiMessage b)) ∧
    (handleResponse c b result).value = result.map (fun t => t.current) ∧
    (∀ (env : Env) (cl : HTTPClient) (req : Request),
      env.roundTrip cl.timeout req = .response c b →
      (cl.doRequest env req result).err =
        some (.text (lit "Wusul API Error (" ++ formatInt c ++ lit "): " ++ apiMessage b))) ∧
    (∀ e m : GoString,
      jsonScan b = some (.object [(lit "error", .string e), (lit "message", .string m)]) →
      apiMessage b = if e ≠ [] then e else if m ≠ [] then m else b) ∧
    (jsonScan b = none → apiMessage b = b) ∧
    (handleResponse 400 (lit "\x7b\"error\":\"bad request\"\x7d") result).err =
      some (.text (lit "Wusul API Error (400): bad request")) ∧
    (handleResponse 400 (lit "\x7b\"error\":\"denied\",\"message\":\"try later\"\x7d") result).err =
      some (.text (lit "Wusul API Error (400): denied")) ∧
    (handleResponse 500 (lit "\x7b\"error\":\"x\",\"message\":5\x7d") result).err =
      some (.text (lit "Wusul API Error (500): \x7b\"error\":\"x\",\"message\":5\x7d")) := by
  have key : ∀ (c2 : Int) (b2 : GoString), (c2 < 200 ∨ c2 ≥ 300) →
      handleResponse c2 b2 result =
        ⟨result.map (fun t => t.current),
         some (.text (lit "Wusul API Error (" ++ formatInt c2 ++ lit "): " ++ apiMessage b2))⟩ := by
    intro c2 b2 h2
    simp only [handleResponse, h2, if_true, apiMessage, apiError]
    rcases hu : unmarshalErrorResp b2 with ⟨fields, e⟩
    cases e with
    | some e => rfl
    | none =>
      simp only
      by_cases h1 : fields.Error = []
      · by_cases h3 : fields.Message = []
        · simp [h1, h3]
        · simp [h1, h3]
      · simp [h1]
  refine ⟨by rw [key c b hc], by rw [key c b hc], ?_, ?_, ?_, ?_, ?_, ?_⟩
  · intro env cl req hr
    simp only [HTTPClient.doRequest, hr]
    rw [key c b hc]
  · intro e m hb
    have h1 : fieldMatches (lit "error") (lit "error") = true := by decide
    have h2 : fieldMatches (lit "error") (lit "message") = false := by decide
    have h3 : fieldMatches (lit "message") (lit "message") = true := by decide
    simp only [apiMessage, unmarshalErrorResp, hb, decodeErrorMembers, h1, h2, h3, storeString,
      if_true, Bool.false_eq_true, if_false, Bool.and_self]
  · intro hb
    simp only [apiMessage, unmarshalErrorResp, hb]
  · rw [key 400 _ (Or.inr (by decide))]
    dsimp only
    decide!
  · rw [key 400 _ (Or.inr (by decide))]
    dsimp only
    decide!
  · rw [key 500 _ (Or.inr (by decide))]
    dsimp only
    decide!

/-- Status 404 with a body that is not JSON: the raw body is the message. -/
theorem handleResponse_api_error_witness :
    (handleResponse 404 (lit "page not found") (none : Option (Target JSON))).err =
      some (.text (lit "Wusul API Error (404): page not found")) :=
  (handleResponse_api_error 404 (lit "page not found") none (Or.inr (by decide))).1.trans
    (by decide!)

/-! ### Client construction (client.go) -/

/-- C11: `NewClient` returns an error exactly when the account identifier or the shared secret
is the empty string; it then returns a nil client and has constructed no HTTP client. For every
other input, whatever the configuration, it returns no error and a client whose `AccessPasses`
and `Console` are not nil. -/
theorem NewClient_validation (accountID sharedSecret : GoString) (config : Option Config) :
    ((NewClient accountID sharedSecret config).err ≠ none ↔
      (accountID = [] ∨ sharedSecret = [])) ∧
    ((accountID = [] ∨ sharedSecret = []) →
      (NewClient accountID sharedSecret config).err =
        some (.text (lit "accountId and sharedSecret are required")) ∧
      (NewClient accountID sharedSecret config).client = none ∧
      (NewClient accountID sharedSecret config).built = []) ∧
    (accountID ≠ [] → sharedSecret ≠ [] →
      (NewClient accountID sharedSecret config).err = none ∧
      ∃ c : Client, (NewClient accountID sharedSecret config).client = some c ∧
        c.AccessPasses = some (newAccessPasses c.http) ∧ c.AccessPasses ≠ none ∧
        c.Console = some (newConsole c.http) ∧ c.Console ≠ none ∧
        (NewClient accountID sharedSecret config).built = [c.http]) := by
  by_cases h : accountID = [] ∨ sharedSecret = []
  · refine ⟨?_, ?_, ?_⟩
    · simp [NewClient, h]
    · intro _
      simp [NewClient, h]
    · intro ha hs
      rcases h with h | h
      · exact absurd h ha
      · exact absurd h hs
  · refine ⟨?_, ?_, ?_⟩
    · simp [NewClient, h]
    · intro h2
      exact absurd h2 h
    · intro _ _
      simp [NewClient, h]

/-- The cases of `TestNewClient`: valid credentials, a missing account identifier, a missing
shared secret. -/
theorem NewClient_validation_witness :
    (NewClient (lit "test_account") (lit "test_secret") none).err = none ∧
    (NewClient [] (lit "test_secret") none).client = none ∧
    (NewClient [] (lit "test_secret") none).built = [] ∧
    (NewClient (lit "test_account") [] none).err =
      some (.text (lit "accountId and sharedSecret are required")) :=
  ⟨((NewClient_validation (lit "test_account") (lit "test_secret") none).2.2
      (by decide) (by decide)).1,
   ((NewClient_validation [] (lit "test_secret") none).2.1 (Or.inl rfl)).2.1,
   ((NewClient_validation [] (lit "test_secret") none).2.1 (Or.inl rfl)).2.2,
   ((NewClient_validation (lit "test_account") [] none).2.1 (Or.inr rfl)).1⟩

/-- C15: for non-empty credentials, the HTTP client that `NewClient` makes with a nil
configuration has the base URL `https://api.wusul.io` and the timeout 30 seconds, that is
30000000000 nanoseconds. With a configuration, its base URL is the configured one exactly when
that is not empty, and its timeout is the configured one exactly when that is greater than zero
(zero and negative values keep the 30 seconds), each regardless of the other; the `AccountID` and
`SharedSecret` fields of the configuration have no influence, the credentials of the client being
the two arguments. -/
theorem NewClient_config (accountID sharedSecret : GoString)
    (ha : accountID ≠ []) (hs : sharedSecret ≠ []) :
    (NewClient accountID sharedSecret none).client.map (fun c => c.http) =
      some (NewHTTPClient accountID sharedSecret (lit "https://api.wusul.io") 30000000000) ∧
    (∀ cfg : Config,
      (NewClient accountID sharedSecret (some cfg)).client.map (fun c => c.http) =
        some (NewHTTPClient accountID sharedSecret
          (if cfg.BaseURL ≠ [] then cfg.BaseURL else lit "https://api.wusul.io")
          (if cfg.Timeout > 0 then cfg.Timeout else 30000000000))) ∧
    (∀ (cfg : Config) (x y : GoString),
      NewClient accountID sharedSecret (some { cfg with AccountID := x, SharedSecret := y }) =
        NewClient accountID sharedSecret (some cfg)) ∧
    (NewClient accountID sharedSecret none).client.map
        (fun c => (c.http.baseURL, c.http.timeout, c.http.accountID, c.http.sharedSecret)) =
      some (lit "https://api.wusul.io", 30 * timeSecond, accountID, sharedSecret) ∧
    (30 * timeSecond = 30000000000) ∧
    (∀ cfg : Config,
      (NewClient accountID sharedSecret (some cfg)).client.map
          (fun c => (c.http.baseURL, c.http.timeout, c.http.accountID, c.http.sharedSecret)) =
        some (if cfg.BaseURL ≠ [] then cfg.BaseURL else lit "https://api.wusul.io",
              if cfg.Timeout > 0 then cfg.Timeout else 30000000000,
              accountID, sharedSecret)) ∧
    (∀ cfg : Config, cfg.BaseURL ≠ [] →
      (NewClient accountID sharedSecret (some cfg)).client.map (fun c => c.http.baseURL) =
        some cfg.BaseURL) ∧
    (∀ cfg : Config, cfg.BaseURL = [] →
      (NewClient accountID sharedSecret (some cfg)).client.map (fun c => c.http.baseURL) =
        some (lit "https://api.wusul.io")) ∧
    (∀ cfg : Config, cfg.Timeout > 0 →
      (NewClient accountID sharedSecret (some cfg)).client.map (fun c => c.http.timeout) =
        some cfg.Timeout) ∧
    (∀ cfg : Config, cfg.Timeout ≤ 0 →
      (NewClient accountID sharedSecret (some cfg)).client.map (fun c => c.http.timeout) =
        some 30000000000) := by
  have h : ¬ (accountID = [] ∨ sharedSecret = []) := by
    rintro (h | h)
    · exact ha h
    · exact hs h
  have ht : 30 * timeSecond = 30000000000 := by decide
  refine ⟨?_, ?_, ?_, ?_, ht, ?_, ?_, ?_, ?_, ?_⟩
  · simp only [NewClient, h, if_false, ht, Option.map_some']
  · intro cfg
    simp only [NewClient, h, if_false, ht, Option.map_some']
  · intro cfg x y
    simp only [NewClient, h, if_false]
  · simp only [NewClient, h, if_false, Option.map_some', NewHTTPClient]
  · intro cfg
    simp only [NewClient, h, if_false, ht, Option.map_some', NewHTTPClient]
  · intro cfg hb
    simp only [NewClient, h, if_false, Option.map_some', NewHTTPClient, ne_eq, hb,
      not_false_eq_true, if_true]
  · intro cfg hb
    simp only [NewClient, h, if_false, Option.map_some', NewHTTPClient, ne_eq, hb,
      not_true_eq_false]
  · intro cfg hb
    simp only [NewClient, h, if_false, Option.map_some', NewHTTPClient, hb, if_true]
  · intro cfg hb
    have hn : ¬ cfg.Timeout > 0 := by omega
    simp only [NewClient, h, if_false, ht, Option.map_some', NewHTTPClient, hn]

/-- The configured client of `TestNewClient`, a base URL and no timeout, keeps the 30 seconds;
a timeout of five seconds and no base URL keeps the default base URL; a negative timeout keeps
the 30 seconds; and no configuration gives both defaults. -/
theorem NewClient_config_witness :
    (NewClient (lit "test_account") (lit "test_secret")
        (some ⟨[], [], lit "https://test.api.wusul.io", 0⟩)).client.map
        (fun c => (c.http.baseURL, c.http.timeout, c.http.accountID, c.http.sharedSecret)) =
      some (lit "https://test.api.wusul.io", 30000000000, lit "test_account",
        lit "test_secret") ∧
    (NewClient (lit "test_account") (lit "test_secret")
        (some ⟨lit "other", lit "other", [], 5000000000⟩)).client.map
        (fun c => (c.http.baseURL, c.http.timeout, c.http.accountID, c.http.sharedSecret)) =
      some (lit "https://api.wusul.io", 5000000000, lit "test_account", lit "test_secret") ∧
    (NewClient (lit "test_account") (lit "test_secret")
        (some ⟨[], [], [], -1⟩)).client.map (fun c => c.http.timeout) = some 30000000000 ∧
    (NewClient (lit "test_account") (lit "test_secret") none).client.map
        (fun c => (c.http.baseURL, c.http.timeout, c.http.accountID, c.http.sharedSecret)) =
      some (lit "https://api.wusul.io", 30000000000, lit "test_account", lit "test_secret") :=
  have w := NewClient_config (lit "test_account") (lit "test_secret") (by decide) (by decide)
  ⟨(w.2.2.2.2.2.1 ⟨[], [], lit "https://test.api.wusul.io", 0⟩).trans (by decide),
   (w.2.2.2.2.2.1 ⟨lit "other", lit "other", [], 5000000000⟩).trans (by decide),
   w.2.2.2.2.2.2.2.2.2 ⟨[], [], [], -1⟩ (by decide),
   w.2.2.2.1.trans (by decide)⟩

/-! ### Shapes of the errors of the transport -/

theorem isAPIError_apiError (c : Int) (m : GoString) : isAPIError (apiError c m) = true := by
  have h : (lit "Wusul API Error (" ++ formatInt c ++ lit "): " ++ m).take 17 =
      lit "Wusul API Error (" := by
    rw [List.append_assoc, List.append_assoc]
    exact List.take_left' (by decide)
  simp only [isAPIError, apiError, h, beq_self_eq_true]

theorem handleResponse_out_of_range {R : Type} (c : Int) (b : GoString)
    (result : Option (Target R)) (hc : c < 200 ∨ c ≥ 300) :
    handleResponse c b result =
      ⟨result.map (fun t => t.current), some (apiError c (apiMessage b))⟩ := by
  simp only [handleResponse, hc, if_true, apiMessage]
  rcases hu : unmarshalErrorResp b with ⟨fields, e⟩
  cases e with
  | some e => rfl
  | none =>
    simp only
    by_cases h1 : fields.Error = []
    · by_cases h3 : fields.Message = []
      · simp [h1, h3]
      · simp [h1, h3]
    · simp [h1]

theorem handleResponse_in_range {R : Type} (c : Int) (b : GoString)
    (result : Option (Target R)) (hc : 200 ≤ c ∧ c < 300) :
    (handleResponse c b result).err = none ∨
    ∃ cause, (handleResponse c b result).err =
        some (.wrap (lit "failed to unmarshal data field") cause) ∨
      (handleResponse c b result).err =
        some (.wrap (lit "failed to unmarshal response") cause) := by
  have hn : ¬ (c < 200 ∨ c ≥ 300) := by omega
  simp only [handleResponse, hn, if_false]
  cases result with
  | none => exact Or.inl rfl
  | some t =>
    simp only
    split
    · split
      · exact Or.inr ⟨_, Or.inl rfl⟩
      · exact Or.inl rfl
    · split
      · exact Or.inr ⟨_, Or.inr rfl⟩
      · exact Or.inl rfl

theorem handleResponse_in_range_nil {R : Type} (c : Int) (b : GoString)
    (hc : 200 ≤ c ∧ c < 300) :
    handleResponse c b (none : Option (Target R)) = ⟨none, none⟩ := by
  have hn : ¬ (c < 200 ∨ c ≥ 300) := by omega
  simp only [handleResponse, hn, if_false]

theorem handleResponse_err_cases {R : Type} (c : Int) (b : GoString)
    (result : Option (Target R)) :
    ((c < 200 ∨ c ≥ 300) ∧
      (handleResponse c b result).err = some (apiError c (apiMessage b))) ∨
    ((200 ≤ c ∧ c < 300) ∧
      ((handleResponse c b result).err = none ∨
       ∃ cause, (handleResponse c b result).err =
          some (.wrap (lit "failed to unmarshal data field") cause) ∨
        (handleResponse c b result).err =
          some (.wrap (lit "failed to unmarshal response") cause))) := by
  by_cases hc : c < 200 ∨ c ≥ 300
  · left
    exact ⟨hc, by rw [handleResponse_out_of_range c b result hc]⟩
  · right
    have hr : 200 ≤ c ∧ c < 300 := by omega
    exact ⟨hr, handleResponse_in_range c b result hr⟩

theorem handleResponse_transportError {R : Type} (c : Int) (b : GoString)
    (result : Option (Target R)) : transportError (handleResponse c b result).err := by
  intro x hx
  rcases handleResponse_err_cases c b result with ⟨-, h⟩ | ⟨-, h | ⟨cause, h | h⟩⟩
  · rw [h] at hx
    injection hx with hx
    subst hx
    exact Or.inl (isAPIError_apiError c _)
  · rw [h] at hx
    cases hx
  · rw [h] at hx
    injection hx with hx
    exact Or.inr ⟨_, _, hx.symm⟩
  · rw [h] at hx
    injection hx with hx
    exact Or.inr ⟨_, _, hx.symm⟩

theorem transportError_wrap (ctx : GoString) (cause : GoError) :
    transportError (some (.wrap ctx cause)) := by
  intro x hx
  injection hx with hx
  exact Or.inr ⟨_, _, hx.symm⟩

theorem doRequest_transportError {R : Type} (env : Env) (c : HTTPClient) (req : Request)
    (result : Option (Target R)) : transportError (c.doRequest env req result).err := by
  simp only [HTTPClient.doRequest]
  split
  · exact transportError_wrap _ _
  · exact transportError_wrap _ _
  · exact handleResponse_transportError _ _ _

theorem encodePayload_error (p : GoValue) (err : GoError) (h : encodePayload p = .error err) :
    ∃ ctx cause, err = .wrap ctx cause := by
  simp only [encodePayload] at h
  split at h
  · injection h with h
    exact ⟨_, _, h.symm⟩
  · cases h

theorem createAuthHeaders_error (a s : GoString) (payload : Option GoValue) (err : GoError)
    (h : createAuthHeaders a s payload = .error err) : ∃ ctx cause, err = .wrap ctx cause := by
  cases payload with
  | none =>
    simp only [createAuthHeaders] at h
    cases he : encodePayload defaultPayload with
    | error e =>
      rw [he] at h
      injection h with h
      subst h
      exact encodePayload_error _ _ he
    | ok v =>
      rw [he] at h
      cases h
  | some p =>
    simp only [createAuthHeaders] at h
    cases he : encodePayload p with
    | error e =>
      rw [he] at h
      injection h with h
      subst h
      exact encodePayload_error _ _ he
    | ok v =>
      rw [he] at h
      cases h

theorem bodyRequest_error (env : Env) (c : HTTPClient) (method path : GoString)
    (data : Option GoValue) (err : GoError)
    (h : c.bodyRequest env method path data = .error err) : ∃ ctx cause, err = .wrap ctx cause := by
  simp only [HTTPClient.bodyRequest] at h
  split at h
  · injection h with h
    exact ⟨_, _, h.symm⟩
  · split at h
    · rename_i e1 he1
      injection h with h
      subst h
      cases data with
      | none => simp at he1
      | some d =>
        simp only at he1
        split at he1
        · injection he1 with he1
          exact ⟨_, _, he1.symm⟩
        · cases he1
    · split at h
      · injection h with h
        exact ⟨_, _, h.symm⟩
      · cases h

theorem getRequest_error (env : Env) (c : HTTPClient) (path : GoString)
    (m : Option (List (GoString × GoValue))) (err : GoError)
    (h : c.getRequest env path m = .error err) : ∃ ctx cause, err = .wrap ctx cause := by
  simp only [HTTPClient.getRequest] at h
  split at h
  · injection h with h
    exact ⟨_, _, h.symm⟩
  · split at h
    · split at h
      · injection h with h
        exact ⟨_, _, h.symm⟩
      · cases h
    · split at h
      · injection h with h
        exact ⟨_, _, h.symm⟩
      · cases h

theorem Post_transportError {R : Type} (env : Env) (c : HTTPClient) (path : GoString)
    (data : Option GoValue) (result : Option (Target R)) :
    transportError (c.Post env path data result).err := by
  simp only [HTTPClient.Post]
  split
  · rename_i err h
    obtain ⟨ctx, cause, rfl⟩ := bodyRequest_error _ _ _ _ _ _ h
    exact transportError_wrap _ _
  · exact doRequest_transportError _ _ _ _

theorem Patch_transportError {R : Type} (env : Env) (c : HTTPClient) (path : GoString)
    (data : Option GoValue) (result : Option (Target R)) :
    transportError (c.Patch env path data result).err := by
  simp only [HTTPClient.Patch]
  split
  · rename_i err h
    obtain ⟨ctx, cause, rfl⟩ := bodyRequest_error _ _ _ _ _ _ h
    exact transportError_wrap _ _
  · exact doRequest_transportError _ _ _ _

theorem Get_transportError {R : Type} (env : Env) (c : HTTPClient) (path : GoString)
    (m : Option (List (GoString × GoValue))) (result : Option (Target R)) :
    transportError (c.Get env path m result).err := by
  simp only [HTTPClient.Get]
  split
  · rename_i err h
    obtain ⟨ctx, cause, rfl⟩ := getRequest_error _ _ _ _ _ h
    exact transportError_wrap _ _
  · exact doRequest_transportError _ _ _ _

theorem finish_err {R : Type} (sent : List Request) (out : Outcome R) :
    (Call.finish sent out).err = out.err := by
  simp only [Call.finish]
  split
  · rename_i e h
    exact h.symm
  · rename_i h
    exact h.symm

theorem transportError_ne_text (e : Option GoError) (h : transportError e) (m : GoString)
    (hm : isAPIError (.text m) = false) : e ≠ some (.text m) := by
  intro he
  rcases h _ he with h1 | ⟨ctx, cause, h2⟩
  · rw [hm] at h1
    cases h1
  · cases h2

/-! ### Identifier checks of the resource methods (access_passes.go, console.go) -/

theorem validation_not_api :
    isAPIError (.text (lit "accessPassId is required")) = false ∧
    isAPIError (.text (lit "cardTemplateId is required")) = false := by
  decide

theorem finish_not_validation {R : Type} (sent : List Request) (out : Outcome R)
    (h : transportError out.err) :
    (Call.finish sent out).err ≠ some (.text (lit "accessPassId is required")) ∧
    (Call.finish sent out).err ≠ some (.text (lit "cardTemplateId is required")) := by
  rw [finish_err]
  exact ⟨transportError_ne_text _ h _ validation_not_api.1,
    transportError_ne_text _ h _ validation_not_api.2⟩

/-- C12: called with an empty identifier, each of `AccessPasses.Update`, `Suspend`, `Resume`,
`Unlink`, `Delete` returns nil and the error `accessPassId is required`, and each of
`Console.ReadTemplate`, `UpdateTemplate`, `PublishTemplate`, `EventLog` returns nil and the error
`cardTemplateId is required`, in every environment and with no request sent. Called with a
non-empty identifier, none of them returns either of these two errors. -/
theorem empty_identifier_rejected {R : Type} (env : Env) (a : AccessPasses) (k : Console)
    (result : Target R) :
    (∀ p : UpdateAccessPassParams, p.AccessPassID = [] →
      a.Update env p result = ⟨[], none, some (.text (lit "accessPassId is required"))⟩) ∧
    a.Suspend env [] result = ⟨[], none, some (.text (lit "accessPassId is required"))⟩ ∧
    a.Resume env [] result = ⟨[], none, some (.text (lit "accessPassId is required"))⟩ ∧
    a.Unlink env [] result = ⟨[], none, some (.text (lit "accessPassId is required"))⟩ ∧
    a.Delete env [] result = ⟨[], none, some (.text (lit "accessPassId is required"))⟩ ∧
    k.ReadTemplate env [] result =
      ⟨[], none, some (.text (lit "cardTemplateId is required"))⟩ ∧
    (∀ p : UpdateCardTemplateParams, p.CardTemplateID = [] →
      k.UpdateTemplate env p result =
        ⟨[], none, some (.text (lit "cardTemplateId is required"))⟩) ∧
    k.PublishTemplate env [] result =
      ⟨[], none, some (.text (lit "cardTemplateId is required"))⟩ ∧
    (∀ p : ReadEventLogParams, p.CardTemplateID = [] →
      k.EventLog env p result = ⟨[], none, some (.text (lit "cardTemplateId is required"))⟩) ∧
    (∀ p : UpdateAccessPassParams, p.AccessPassID ≠ [] →
      (a.Update env p result).err ≠ some (.text (lit "accessPassId is required")) ∧
      (a.Update env p result).err ≠ some (.text (lit "cardTemplateId is required"))) ∧
    (∀ id : GoString, id ≠ [] →
      ((a.Suspend env id result).err ≠ some (.text (lit "accessPassId is required")) ∧
       (a.Suspend env id result).err ≠ some (.text (lit "cardTemplateId is required"))) ∧
      ((a.Resume env id result).err ≠ some (.text (lit "accessPassId is required")) ∧
       (a.Resume env id result).err ≠ some (.text (lit "cardTemplateId is required"))) ∧
      ((a.Unlink env id result).err ≠ some (.text (lit "accessPassId is required")) ∧
       (a.Unlink env id result).err ≠ some (.text (lit "cardTemplateId is required"))) ∧
      ((a.Delete env id result).err ≠ some (.text (lit "accessPassId is required")) ∧
       (a.Delete env id result).err ≠ some (.text (lit "cardTemplateId is required"))) ∧
      ((k.ReadTemplate env id result).err ≠ some (.text (lit "accessPassId is required")) ∧
       (k.ReadTemplate env id result).err ≠ some (.text (lit "cardTemplateId is required"))) ∧
      ((k.PublishTemplate env id result).err ≠ some (.text (lit "accessPassId is required")) ∧
       (k.PublishTemplate env id result).err ≠
         some (.text (lit "cardTemplateId is required")))) ∧
    (∀ p : UpdateCardTemplateParams, p.CardTemplateID ≠ [] →
      (k.UpdateTemplate env p result).err ≠ some (.text (lit "accessPassId is required")) ∧
      (k.UpdateTemplate env p result).err ≠ some (.text (lit "cardTemplateId is required"))) ∧
    (∀ p : ReadEventLogParams, p.CardTemplateID ≠ [] →
      (k.EventLog env p result).err ≠ some (.text (lit "accessPassId is required")) ∧
      (k.EventLog env p result).err ≠ some (.text (lit "cardTemplateId is required"))) := by
  refine ⟨?_, ?_, ?_, ?_, ?_, ?_, ?_, ?_, ?_, ?_, ?_, ?_, ?_⟩
  · intro p hp
    simp only [AccessPasses.Update, hp, if_true]
  · simp only [AccessPasses.Suspend, if_true]
  · simp only [AccessPasses.Resume, if_true]
  · simp only [AccessPasses.Unlink, if_true]
  · simp only [AccessPasses.Delete, if_true]
  · simp only [Console.ReadTemplate, if_true]
  · intro p hp
    simp only [Console.UpdateTemplate, hp, if_true]
  · simp only [Console.PublishTemplate, if_true]
  · intro p hp
    simp only [Console.EventLog, hp, if_true]
  · intro p hp
    simp only [AccessPasses.Update, hp, if_false]
    exact finish_not_validation _ _ (Patch_transportError _ _ _ _ _)
  · intro id hid
    refine ⟨?_, ?_, ?_, ?_, ?_, ?_⟩
    · simp only [AccessPasses.Suspend, hid, if_false]
      exact finish_not_validation _ _ (Post_transportError _ _ _ _ _)
    · simp only [AccessPasses.Resume, hid, if_false]
      exact finish_not_validation _ _ (Post_transportError _ _ _ _ _)
    · simp only [AccessPasses.Unlink, hid, if_false]
      exact finish_not_validation _ _ (Post_transportError _ _ _ _ _)
    · simp only [AccessPasses.Delete, hid, if_false]
      exact finish_not_validation _ _ (Post_transportError _ _ _ _ _)
    · simp only [Console.ReadTemplate, hid, if_false]
      exact finish_not_validation _ _ (Get_transportError _ _ _ _ _)
    · simp only [Console.PublishTemplate, hid, if_false]
      exact finish_not_validation _ _ (Post_transportError _ _ _ _ _)
  · intro p hp
    simp only [Console.UpdateTemplate, hp, if_false]
    exact finish_not_validation _ _ (Patch_transportError _ _ _ _ _)
  · intro p hp
    simp only [Console.EventLog, hp, if_false]
    exact finish_not_validation _ _ (Get_transportError _ _ _ _ _)

/-- Suspending the pass `p1` where the server answers 200 with `{}`: one request is sent, to
the `suspend` path, and no error is returned; and updating a pass without an identifier. -/
theorem empty_identifier_rejected_witness :
    ((newAccessPasses (NewHTTPClient (lit "acct") (lit "secret") (lit "https://api.wusul.io")
        30000000000)).Suspend plainEnv (lit "p1") anyTarget).err ≠
      some (.text (lit "accessPassId is required")) ∧
    ((newAccessPasses (NewHTTPClient (lit "acct") (lit "secret") (lit "https://api.wusul.io")
        30000000000)).Suspend plainEnv (lit "p1") anyTarget).sent.map
        (fun r => (r.method, r.url.location)) =
      [(lit "POST", lit "https://api.wusul.io/v1/access-passes/p1/suspend")] ∧
    ((newAccessPasses (NewHTTPClient (lit "acct") (lit "secret") (lit "https://api.wusul.io")
        30000000000)).Update plainEnv ⟨[], [], lit "Ann", [], [], [], [], [], none⟩
        anyTarget).sent = [] :=
  have w := empty_identifier_rejected plainEnv
    (newAccessPasses (NewHTTPClient (lit "acct") (lit "secret") (lit "https://api.wusul.io")
      30000000000))
    (newConsole (NewHTTPClient (lit "acct") (lit "secret") (lit "https://api.wusul.io")
      30000000000)) anyTarget
  ⟨(w.2.2.2.2.2.2.2.2.2.2.1 (lit "p1") (by decide)).1.1, by decide!,
   congrArg Call.sent (w.1 ⟨[], [], lit "Ann", [], [], [], [], [], none⟩ rfl)⟩

/-! ### Status codes (http_client.go) -/

/-- C16: once the body has been read, `doRequest` returns a `Wusul API Error` exactly when the
status code is below 200 or at least 300. Statuses 199 and 300 fail with it whatever the body
and also when `result` is nil; statuses 200 and 299, like every status in between, never give
an API error: they return nil when `result` is nil, and otherwise nil or a decoding error
(`failed to unmarshal data field` or `failed to unmarshal response`). -/
theorem doRequest_api_error_iff {R : Type} (env : Env) (cl : HTTPClient) (req : Request)
    (c : Int) (b : GoString) (result : Option (Target R))
    (hr : env.roundTrip cl.timeout req = .response c b) :
    ((∃ e, (cl.doRequest env req result).err = some e ∧ isAPIError e = true) ↔
      (c < 200 ∨ c ≥ 300)) ∧
    (cl.doRequest env req result = handleResponse c b result) ∧
    ((c < 200 ∨ c ≥ 300) →
      (handleResponse c b result).err = some (apiError c (apiMessage b))) ∧
    ((200 ≤ c ∧ c < 300) →
      (handleResponse c b (none : Option (Target R))).err = none ∧
      ((handleResponse c b result).err = none ∨
       ∃ cause, (handleResponse c b result).err =
          some (.wrap (lit "failed to unmarshal data field") cause) ∨
        (handleResponse c b result).err =
          some (.wrap (lit "failed to unmarshal response") cause))) ∧
    (∀ body : GoString,
      isAPIError (apiError 199 (apiMessage body)) = true ∧
      (handleResponse 199 body result).err = some (apiError 199 (apiMessage body)) ∧
      (handleResponse 199 body (none : Option (Target R))).err =
        some (apiError 199 (apiMessage body)) ∧
      (handleResponse 300 body result).err = some (apiError 300 (apiMessage body)) ∧
      (handleResponse 300 body (none : Option (Target R))).err =
        some (apiError 300 (apiMessage body)) ∧
      (handleResponse 200 body (none : Option (Target R))).err = none ∧
      (handleResponse 299 body (none : Option (Target R))).err = none ∧
      (∀ e, (handleResponse 200 body result).err = some e → isAPIError e = false) ∧
      (∀ e, (handleResponse 299 body result).err = some e → isAPIError e = false)) := by
  have hd : cl.doRequest env req result = handleResponse c b result := by
    simp only [HTTPClient.doRequest, hr]
  have notApi : ∀ (c2 : Int) (b2 : GoString), (200 ≤ c2 ∧ c2 < 300) →
      ∀ e, (handleResponse c2 b2 result).err = some e → isAPIError e = false := by
    intro c2 b2 h2 e he
    rcases handleResponse_in_range c2 b2 result h2 with h | ⟨cause, h | h⟩
    · rw [h] at he
      cases he
    · rw [h] at he
      injection he with he
      subst he
      rfl
    · rw [h] at he
      injection he with he
      subst he
      rfl
  refine ⟨?_, hd, ?_, ?_, ?_⟩
  · rw [hd]
    constructor
    · rintro ⟨e, he, hapi⟩
      by_contra hc
      have h2 : 200 ≤ c ∧ c < 300 := by omega
      rw [notApi c b h2 e he] at hapi
      cases hapi
    · intro hc
      exact ⟨_, by rw [handleResponse_out_of_range c b result hc], isAPIError_apiError _ _⟩
  · intro hc
    rw [handleResponse_out_of_range c b result hc]
  · intro hc
    exact ⟨by rw [handleResponse_in_range_nil c b hc], handleResponse_in_range c b result hc⟩
  · intro body
    refine ⟨isAPIError_apiError _ _, ?_, ?_, ?_, ?_, ?_, ?_, ?_, ?_⟩
    · rw [handleResponse_out_of_range 199 body result (Or.inl (by decide))]
    · rw [handleResponse_out_of_range 199 body none (Or.inl (by decide))]
    · rw [handleResponse_out_of_range 300 body result (Or.inr (by decide))]
    · rw [handleResponse_out_of_range 300 body none (Or.inr (by decide))]
    · rw [handleResponse_in_range_nil 200 body (by decide)]
    · rw [handleResponse_in_range_nil 299 body (by decide)]
    · exact notApi 200 body (by decide)
    · exact notApi 299 body (by decide)

/-- A server that answers 200 with `{}`: the request for a `*interface{}` result ends without
error; and status 300 with the same body is an API error. -/
theorem doRequest_api_error_iff_witness :
    (handleResponse 200 (lit "\x7b\x7d") (some anyTarget)).err = none ∧
    (handleResponse 300 (lit "\x7b\x7d") (some anyTarget)).err =
      some (.text (lit "Wusul API Error (300): \x7b\x7d")) := by
  have w := doRequest_api_error_iff plainEnv
    (NewHTTPClient (lit "acct") (lit "secret") (lit "https://api.wusul.io") 30000000000)
    ⟨lit "GET", ⟨lit "https://api.wusul.io/health", []⟩, [], none⟩ 200 (lit "\x7b\x7d")
    (some anyTarget) rfl
  have h0 : (handleResponse 200 (lit "\x7b\x7d") (some anyTarget)).err = none := by decide!
  refine ⟨?_, ?_⟩
  · rcases (w.2.2.2.1 (by decide)).2 with h | ⟨cause, h | h⟩
    · exact h
    · rw [h0] at h
      cases h
    · rw [h0] at h
      cases h
  · exact ((w.2.2.2.2 (lit "\x7b\x7d")).2.2.2.1).trans (by decide!)

/-! ### Requests built by the HTTP client (http_client.go) -/

theorem headers_get_sig (a sig ct : GoString) :
    Headers.get [(lit "X-ACCT-ID", a), (lit "X-PAYLOAD-SIG", sig), (lit "Content-Type", ct)]
      (lit "X-PAYLOAD-SIG") = sig := by
  have h1 : (lit "X-ACCT-ID" == lit "X-PAYLOAD-SIG") = false := by decide
  simp [Headers.get, List.find?, h1]

theorem bodyRequest_some (env : Env) (c : HTTPClient) (method path : GoString) (x : GoValue)
    (bytes : List UInt8) (u : ParsedURL) (hx : jsonMarshal x = .ok bytes)
    (hu : env.urlParse (c.baseURL ++ path) = .ok u) :
    c.bodyRequest env method path (some x) =
      .ok { method := method, url := u,
            header := [(lit "X-ACCT-ID", c.accountID),
              (lit "X-PAYLOAD-SIG", createSignature c.sharedSecret (base64Encode bytes)),
              (lit "Content-Type", lit "application/json")],
            body := some bytes } := by
  simp only [HTTPClient.bodyRequest, createAuthHeaders, encodePayload, hx, hu]

theorem bodyRequest_none (env : Env) (c : HTTPClient) (method path : GoString) (u : ParsedURL)
    (hu : env.urlParse (c.baseURL ++ path) = .ok u) :
    c.bodyRequest env method path none =
      .ok { method := method, url := u,
            header := [(lit "X-ACCT-ID", c.accountID),
              (lit "X-PAYLOAD-SIG", createSignature c.sharedSecret (lit "eyJpZCI6IjAifQ==")),
              (lit "Content-Type", lit "application/json")],
            body := some [] } := by
  simp only [HTTPClient.bodyRequest, createAuthHeaders, encodePayload_default, hu]

theorem getRequest_ok (env : Env) (c : HTTPClient) (path : GoString)
    (m : Option (List (GoString × GoValue))) (bytes : List UInt8) (u : ParsedURL)
    (hm : jsonMarshal (.map (m.getD [(lit "id", .string (lit "0"))])) = .ok bytes)
    (hu : env.urlParse (c.baseURL ++ path) = .ok u) :
    c.getRequest env path m =
      .ok { method := lit "GET",
            url := { u with query := u.query.Set (lit "sig_payload") (base64Encode bytes) },
            header := [(lit "X-ACCT-ID", c.accountID),
              (lit "X-PAYLOAD-SIG", createSignature c.sharedSecret (base64Encode bytes)),
              (lit "Content-Type", lit "application/json")],
            body := none } := by
  have hne : base64Encode bytes ≠ [] := base64Encode_ne_nil bytes (jsonMarshal_ne_nil _ bytes hm)
  have e : encodePayload (.map (m.getD [(lit "id", .string (lit "0"))])) =
      .ok (base64Encode bytes) := encodePayload_of_marshal _ bytes hm
  have hh : createGetAuthHeaders c.accountID c.sharedSecret m =
      .ok ([(lit "X-ACCT-ID", c.accountID),
            (lit "X-PAYLOAD-SIG", createSignature c.sharedSecret (base64Encode bytes)),
            (lit "Content-Type", lit "application/json")], base64Encode bytes) := by
    cases m with
    | none =>
      simp only [Option.getD] at e
      simp only [createGetAuthHeaders, e]
    | some es =>
      simp only [Option.getD] at e
      simp only [createGetAuthHeaders, e]
  simp only [HTTPClient.getRequest, hh, hu, ne_eq, hne, not_false_eq_true, if_true]

/-- C13, as stated, fails: posting the empty map with the secret `test_secret` sends the
body `{}` with a signature over `e30=`, the encoding of `{}`, and that signature is not the one
over the sentinel `eyJpZCI6IjAifQ==`. -/
theorem Post_empty_map_signature :
    (HTTPClient.bodyRequest plainEnv
        (NewHTTPClient (lit "test_account") (lit "test_secret") (lit "https://api.wusul.io")
          30000000000)
        (lit "POST") (lit "/v1/access-passes") (some (.map []))).map
      (fun r => (r.body, r.header.get (lit "X-PAYLOAD-SIG"))) =
      .ok (some (lit "\x7b\x7d"), createSignature (lit "test_secret") (lit "e30=")) ∧
    createSignature (lit "test_secret") (lit "e30=") ≠
      createSignature (lit "test_secret") (lit "eyJpZCI6IjAifQ==") := by
  decide!

/-- C13, amended: in the request that `Post` and `Patch` build, the `X-PAYLOAD-SIG` header is
the signature over the sentinel `eyJpZCI6IjAifQ==` when the body is nil, and the signature over
`encodePayload(body)` for every body that is not nil; for the empty map that is the signature
over `e30=`, the encoding of `{}`. -/
theorem bodyRequest_signature (env : Env) (c : HTTPClient) (path : GoString) (u : ParsedURL)
    (hu : env.urlParse (c.baseURL ++ path) = .ok u) :
    (∀ method : GoString, ∃ req : Request,
      c.bodyRequest env method path none = .ok req ∧
      req.header.get (lit "X-PAYLOAD-SIG") =
        createSignature c.sharedSecret (lit "eyJpZCI6IjAifQ==")) ∧
    (∀ (method : GoString) (x : GoValue) (e : GoString), encodePayload x = .ok e →
      ∃ req : Request, c.bodyRequest env method path (some x) = .ok req ∧
        req.header.get (lit "X-PAYLOAD-SIG") = createSignature c.sharedSecret e) ∧
    (∀ method : GoString, ∃ req : Request,
      c.bodyRequest env method path (some (.map [])) = .ok req ∧
      req.header.get (lit "X-PAYLOAD-SIG") = createSignature c.sharedSecret (lit "e30=")) ∧
    (∀ (R : Type) (data : Option GoValue) (result : Option (Target R)) (req : Request),
      (c.bodyRequest env (lit "POST") path data = .ok req →
        c.Post env path data result = c.doRequest env req result) ∧
      (c.bodyRequest env (lit "PATCH") path data = .ok req →
        c.Patch env path data result = c.doRequest env req result)) := by
  refine ⟨?_, ?_, ?_, ?_⟩
  · intro method
    exact ⟨_, bodyRequest_none env c method path u hu, headers_get_sig _ _ _⟩
  · intro method x e he
    cases hx : jsonMarshal x with
    | error err =>
      simp only [encodePayload, hx] at he
      cases he
    | ok bytes =>
      simp only [encodePayload, hx, Except.ok.injEq] at he
      subst he
      exact ⟨_, bodyRequest_some env c method path x bytes u hx hu, headers_get_sig _ _ _⟩
  · intro method
    have hx : jsonMarshal (.map []) = .ok (lit "\x7b\x7d") := by decide
    have hb : base64Encode (lit "\x7b\x7d") = lit "e30=" := by decide
    refine ⟨_, bodyRequest_some env c method path _ _ u hx hu, ?_⟩
    rw [headers_get_sig, hb]
  · intro R data result req
    constructor
    · intro h
      simp only [HTTPClient.Post, h]
    · intro h
      simp only [HTTPClient.Patch, h]

/-- Updating the pass `p1` with no field set: the request is a `PATCH` with the body `{}`,
signed over `e30=`; and suspending it posts an empty body signed over the sentinel. -/
theorem bodyRequest_signature_witness :
    (∃ req : Request,
      HTTPClient.bodyRequest plainEnv
        (NewHTTPClient (lit "test_account") (lit "test_secret") (lit "https://api.wusul.io")
          30000000000)
        (lit "PATCH") (lit "/v1/access-passes/p1")
        (some (UpdateAccessPassParams.toValue ⟨lit "p1", [], [], [], [], [], [], [], none⟩)) =
        .ok req ∧
      req.header.get (lit "X-PAYLOAD-SIG") = createSignature (lit "test_secret") (lit "e30=")) ∧
    (∃ req : Request,
      HTTPClient.bodyRequest plainEnv
        (NewHTTPClient (lit "test_account") (lit "test_secret") (lit "https://api.wusul.io")
          30000000000)
        (lit "POST") (lit "/v1/access-passes/p1/suspend") none = .ok req ∧
      req.header.get (lit "X-PAYLOAD-SIG") =
        createSignature (lit "test_secret") (lit "eyJpZCI6IjAifQ==")) :=
  ⟨(bodyRequest_signature plainEnv
      (NewHTTPClient (lit "test_account") (lit "test_secret") (lit "https://api.wusul.io")
        30000000000)
      (lit "/v1/access-passes/p1") ⟨lit "https://api.wusul.io/v1/access-passes/p1", []⟩
      (by decide)).2.1 (lit "PATCH")
      (UpdateAccessPassParams.toValue ⟨lit "p1", [], [], [], [], [], [], [], none⟩)
      (lit "e30=") (by decide),
   (bodyRequest_signature plainEnv
      (NewHTTPClient (lit "test_account") (lit "test_secret") (lit "https://api.wusul.io")
        30000000000)
      (lit "/v1/access-passes/p1/suspend")
      ⟨lit "https://api.wusul.io/v1/access-passes/p1/suspend", []⟩ (by decide)).1 (lit "POST")⟩

/-- Seen in one order by both serializations, the request is the one of `bodyRequest`. -/
theorem bodyRequestSeen_self (env : Env) (c : HTTPClient) (method path : GoString)
    (data : Option GoValue) :
    c.bodyRequestSeen env method path data data = c.bodyRequest env method path data := rfl

/-- The request built from two views of the body: the signature is over the bytes of the
view that was signed, the body holds the bytes of the view that was sent. -/
theorem bodyRequestSeen_some (env : Env) (c : HTTPClient) (method path : GoString)
    (v w : GoValue) (signedBytes sentBytes : List UInt8) (u : ParsedURL)
    (hv : jsonMarshal v = .ok signedBytes) (hw : jsonMarshal w = .ok sentBytes)
    (hu : env.urlParse (c.baseURL ++ path) = .ok u) :
    c.bodyRequestSeen env method path (some v) (some w) =
      .ok { method := method, url := u,
            header := [(lit "X-ACCT-ID", c.accountID),
              (lit "X-PAYLOAD-SIG", createSignature c.sharedSecret (base64Encode signedBytes)),
              (lit "Content-Type", lit "application/json")],
            body := some sentBytes } := by
  simp only [HTTPClient.bodyRequestSeen, createAuthHeaders, encodePayload, hv, hw, hu]

/-- C14: for a body that is not nil and on which `json.Marshal` succeeds with the bytes `B`,
the request that `Post` and `Patch` build has `B` as its body and, as `X-PAYLOAD-SIG`, the
signature over the base64 text of `B`, and that request is the one handed to `doRequest`.
The body is serialized twice, in `createAuthHeaders` for the signature and again for the
request body, and the two calls of `json.Marshal` may meet the entries of the maps of the
body in different orders `v` and `w`: both calls give `B` whatever the orders, and the request
is the same one. -/
theorem bodyRequest_signs_body (env : Env) (c : HTTPClient) (path : GoString) (x : GoValue)
    (B : List UInt8) (u : ParsedURL)
    (hx : jsonMarshal x = .ok B) (hu : env.urlParse (c.baseURL ++ path) = .ok u) :
    (∃ req : Request, c.bodyRequest env (lit "POST") path (some x) = .ok req ∧
      req.method = lit "POST" ∧ req.body = some B ∧
      req.header.get (lit "X-PAYLOAD-SIG") = createSignature c.sharedSecret (base64Encode B) ∧
      base64Decode (base64Encode B) = some B ∧
      (∀ (R : Type) (result : Option (Target R)),
        c.Post env path (some x) result = c.doRequest env req result) ∧
      ∀ v w : GoValue, SameValue x v → SameValue x w →
        jsonMarshal v = .ok B ∧ jsonMarshal w = .ok B ∧
        encodePayload v = .ok (base64Encode B) ∧
        c.bodyRequestSeen env (lit "POST") path (some v) (some w) = .ok req) ∧
    (∃ req : Request, c.bodyRequest env (lit "PATCH") path (some x) = .ok req ∧
      req.method = lit "PATCH" ∧ req.body = some B ∧
      req.header.get (lit "X-PAYLOAD-SIG") = createSignature c.sharedSecret (base64Encode B) ∧
      base64Decode (base64Encode B) = some B ∧
      (∀ (R : Type) (result : Option (Target R)),
        c.Patch env path (some x) result = c.doRequest env req result) ∧
      ∀ v w : GoValue, SameValue x v → SameValue x w →
        jsonMarshal v = .ok B ∧ jsonMarshal w = .ok B ∧
        encodePayload v = .ok (base64Encode B) ∧
        c.bodyRequestSeen env (lit "PATCH") path (some v) (some w) = .ok req) := by
  have h1 := bodyRequest_some env c (lit "POST") path x B u hx hu
  have h2 := bodyRequest_some env c (lit "PATCH") path x B u hx hu
  have hs : ∀ v : GoValue, SameValue x v → jsonMarshal v = .ok B :=
    fun v hv => (jsonMarshal_same hv).symm.trans hx
  refine ⟨⟨_, h1, rfl, rfl, headers_get_sig _ _ _, base64_roundtrip B, ?_, ?_⟩,
    ⟨_, h2, rfl, rfl, headers_get_sig _ _ _, base64_roundtrip B, ?_, ?_⟩⟩
  · intro R result
    simp only [HTTPClient.Post, h1]
  · intro v w hv hw
    exact ⟨hs v hv, hs w hw, encodePayload_of_marshal v B (hs v hv),
      bodyRequestSeen_some env c _ path v w B B u (hs v hv) (hs w hw) hu⟩
  · intro R result
    simp only [HTTPClient.Patch, h2]
  · intro v w hv hw
    exact ⟨hs v hv, hs w hw, encodePayload_of_marshal v B (hs v hv),
      bodyRequestSeen_some env c _ path v w B B u (hs v hv) (hs w hw) hu⟩

/-- Posting a map of two entries, one of them a map of two entries, whose entries are met as
`b`, `a` and `d`, `c` when signing and as `a`, `b` and `c`, `d` when sending: the body is
`{"a":{"c":2,"d":1},"b":1}` and the signature is over its base64 text. -/
theorem bodyRequest_signs_body_witness :
    ∃ req : Request,
      HTTPClient.bodyRequestSeen plainEnv
        (NewHTTPClient (lit "test_account") (lit "test_secret") (lit "https://api.wusul.io")
          30000000000)
        (lit "POST") (lit "/v1/access-passes")
        (some (.map [(lit "b", .int 1), (lit "a", .map [(lit "d", .int 1), (lit "c", .int 2)])]))
        (some (.map [(lit "a", .map [(lit "c", .int 2), (lit "d", .int 1)]), (lit "b", .int 1)]))
        = .ok req ∧
      HTTPClient.bodyRequest plainEnv
        (NewHTTPClient (lit "test_account") (lit "test_secret") (lit "https://api.wusul.io")
          30000000000)
        (lit "POST") (lit "/v1/access-passes")
        (some (.map [(lit "a", .map [(lit "c", .int 2), (lit "d", .int 1)]), (lit "b", .int 1)]))
        = .ok req ∧
      req.body = some (lit "\x7b\"a\":\x7b\"c\":2,\"d\":1\x7d,\"b\":1\x7d") ∧
      req.header.get (lit "X-PAYLOAD-SIG") =
        createSignature (lit "test_secret") (lit "eyJhIjp7ImMiOjIsImQiOjF9LCJiIjoxfQ==") := by
  have same : SameValue (.map [(lit "c", .int 2), (lit "d", .int 1)])
      (.map [(lit "c", .int 2), (lit "d", .int 1)]) :=
    SameValue.map (SameEntries.cons (SameValue.int 2) (SameEntries.cons (SameValue.int 1)
      SameEntries.nil)) (List.Perm.refl _) (by decide)
  have turned : SameValue (.map [(lit "c", .int 2), (lit "d", .int 1)])
      (.map [(lit "d", .int 1), (lit "c", .int 2)]) :=
    SameValue.map (SameEntries.cons (SameValue.int 2) (SameEntries.cons (SameValue.int 1)
      SameEntries.nil)) (List.Perm.swap _ _ _) (by decide)
  have sent : SameValue
      (.map [(lit "a", .map [(lit "c", .int 2), (lit "d", .int 1)]), (lit "b", .int 1)])
      (.map [(lit "a", .map [(lit "c", .int 2), (lit "d", .int 1)]), (lit "b", .int 1)]) :=
    SameValue.map (SameEntries.cons same (SameEntries.cons (SameValue.int 1) SameEntries.nil))
      (List.Perm.refl _) (by decide)
  have signed : SameValue
      (.map [(lit "a", .map [(lit "c", .int 2), (lit "d", .int 1)]), (lit "b", .int 1)])
      (.map [(lit "b", .int 1), (lit "a", .map [(lit "d", .int 1), (lit "c", .int 2)])]) :=
    SameValue.map (SameEntries.cons turned (SameEntries.cons (SameValue.int 1) SameEntries.nil))
      (List.Perm.swap _ _ _) (by decide)
  obtain ⟨req, h1, -, h3, h4, -, -, h6⟩ := (bodyRequest_signs_body plainEnv
    (NewHTTPClient (lit "test_account") (lit "test_secret") (lit "https://api.wusul.io")
      30000000000)
    (lit "/v1/access-passes")
    (.map [(lit "a", .map [(lit "c", .int 2), (lit "d", .int 1)]), (lit "b", .int 1)])
    (lit "\x7b\"a\":\x7b\"c\":2,\"d\":1\x7d,\"b\":1\x7d")
    ⟨lit "https://api.wusul.io/v1/access-passes", []⟩ (by decide) (by decide)).1
  have e : base64Encode (lit "\x7b\"a\":\x7b\"c\":2,\"d\":1\x7d,\"b\":1\x7d") =
      lit "eyJhIjp7ImMiOjIsImQiOjF9LCJiIjoxfQ==" := by decide
  refine ⟨req, (h6 _ _ signed sent).2.2.2, h1, h3, ?_⟩
  rw [h4]
  simp only [NewHTTPClient, e]

/-! ### The sentinel and the empty filter map -/

theorem sentRequests_ok (req : Request) : sentRequests (.ok req) = [req] := rfl

theorem finish_sent {R : Type} (sent : List Request) (out : Outcome R) :
    (Call.finish sent out).sent = sent := by
  simp only [Call.finish]
  split <;> rfl

/-- C17: `createGetAuthHeaders` puts the sentinel in place of a nil filter map only. An empty
map that is not nil is serialized as `{}` and gives the encoded payload `e30=`, which is not the
`eyJpZCI6IjAifQ==` that a nil map gives. So `AccessPasses.List` without filters, which passes a
map that is not nil, sends a request signed over `e30=` with `sig_payload` `e30=`, and
`Client.Health`, which passes nil, sends one signed over the sentinel. -/
theorem createGetAuthHeaders_empty_map (a s : GoString) :
    jsonMarshal (.map []) = .ok (lit "\x7b\x7d") ∧
    createGetAuthHeaders a s (some []) =
      .ok ([(lit "X-ACCT-ID", a), (lit "X-PAYLOAD-SIG", createSignature s (lit "e30=")),
            (lit "Content-Type", lit "application/json")], lit "e30=") ∧
    createGetAuthHeaders a s none =
      .ok ([(lit "X-ACCT-ID", a),
            (lit "X-PAYLOAD-SIG", createSignature s (lit "eyJpZCI6IjAifQ==")),
            (lit "Content-Type", lit "application/json")], lit "eyJpZCI6IjAifQ==") ∧
    lit "e30=" ≠ lit "eyJpZCI6IjAifQ==" ∧
    listSigPayload none = [] ∧ listSigPayload (some ⟨[], []⟩) = [] ∧
    (∀ (R : Type) (env : Env) (ap : AccessPasses) (params : Option ListAccessPassesParams)
        (result : Target R),
      (ap.List env params result).sent =
        sentRequests (ap.http.getRequest env (lit "/v1/access-passes")
          (some (listSigPayload params)))) ∧
    (∀ (R : Type) (env : Env) (baseURL : GoString) (timeout : Int) (u : ParsedURL)
        (params : Option ListAccessPassesParams) (result : Target R),
      env.urlParse (baseURL ++ lit "/v1/access-passes") = .ok u →
      listSigPayload params = [] →
      ∃ req : Request,
        ((newAccessPasses (NewHTTPClient a s baseURL timeout)).List env params result).sent =
          [req] ∧
        req.header.get (lit "X-PAYLOAD-SIG") = createSignature s (lit "e30=") ∧
        req.url.query.Get (lit "sig_payload") = lit "e30=") ∧
    (∀ (R : Type) (env : Env) (baseURL : GoString) (timeout : Int) (u : ParsedURL)
        (ap : Option AccessPasses) (co : Option Console) (result : Target R),
      env.urlParse (baseURL ++ lit "/health") = .ok u →
      ∃ req : Request,
        (Client.Health env ⟨NewHTTPClient a s baseURL timeout, ap, co⟩ result).sent = [req] ∧
        req.header.get (lit "X-PAYLOAD-SIG") = createSignature s (lit "eyJpZCI6IjAifQ==") ∧
        req.url.query.Get (lit "sig_payload") = lit "eyJpZCI6IjAifQ==") := by
  have hx : jsonMarshal (.map []) = .ok (lit "\x7b\x7d") := by decide
  have hb : base64Encode (lit "\x7b\x7d") = lit "e30=" := by decide
  have he : encodePayload (.map []) = .ok (lit "e30=") := by decide
  have hs : jsonMarshal (.map [(lit "id", .string (lit "0"))]) =
      .ok (lit "\x7b\"id\":\"0\"\x7d") := by decide
  have hsb : base64Encode (lit "\x7b\"id\":\"0\"\x7d") = lit "eyJpZCI6IjAifQ==" := by decide
  refine ⟨hx, ?_, ?_, by decide, rfl, rfl, ?_, ?_, ?_⟩
  · simp only [createGetAuthHeaders, he]
  · simp only [createGetAuthHeaders]
    rw [show GoValue.map [(lit "id", GoValue.string (lit "0"))] = defaultPayload from rfl,
      encodePayload_default]
  · intro R env ap params result
    simp only [AccessPasses.List, finish_sent]
  · intro R env baseURL timeout u params result hu hp
    have hg := getRequest_ok env (NewHTTPClient a s baseURL timeout) (lit "/v1/access-passes")
      (some []) (lit "\x7b\x7d") u hx hu
    rw [hb] at hg
    simp only [NewHTTPClient] at hg
    refine ⟨{ method := lit "GET",
              url := { u with query := u.query.Set (lit "sig_payload") (lit "e30=") },
              header := [(lit "X-ACCT-ID", a),
                (lit "X-PAYLOAD-SIG", createSignature s (lit "e30=")),
                (lit "Content-Type", lit "application/json")],
              body := none }, ?_, headers_get_sig _ _ _, values_get_set _ _ _⟩
    simp only [AccessPasses.List, newAccessPasses, hp, finish_sent, hg, sentRequests,
      NewHTTPClient]
  · intro R env baseURL timeout u ap co result hu
    have hg := getRequest_ok env (NewHTTPClient a s baseURL timeout) (lit "/health")
      none (lit "\x7b\"id\":\"0\"\x7d") u hs hu
    rw [hsb] at hg
    simp only [NewHTTPClient] at hg
    refine ⟨{ method := lit "GET",
              url := { u with query := u.query.Set (lit "sig_payload") (lit "eyJpZCI6IjAifQ==") },
              header := [(lit "X-ACCT-ID", a),
                (lit "X-PAYLOAD-SIG", createSignature s (lit "eyJpZCI6IjAifQ==")),
                (lit "Content-Type", lit "application/json")],
              body := none }, ?_, headers_get_sig _ _ _, values_get_set _ _ _⟩
    simp only [Client.Health, finish_sent, hg, sentRequests, NewHTTPClient]

/-- Listing passes with no parameters, and checking health, with the client that `NewClient`
makes for the credentials of the tests: the query parameters of the two requests. -/
theorem createGetAuthHeaders_empty_map_witness :
    ((newAccessPasses (NewHTTPClient (lit "test_account") (lit "test_secret")
        (lit "https://api.wusul.io") 30000000000)).List plainEnv none anyTarget).sent.map
        (fun r => r.url.query.Get (lit "sig_payload")) = [lit "e30="] ∧
    (Client.Health plainEnv
        ⟨NewHTTPClient (lit "test_account") (lit "test_secret") (lit "https://api.wusul.io")
          30000000000, none, none⟩ anyTarget).sent.map
        (fun r => r.url.query.Get (lit "sig_payload")) = [lit "eyJpZCI6IjAifQ=="] := by
  have w := createGetAuthHeaders_empty_map (lit "test_account") (lit "test_secret")
  obtain ⟨r1, h1, -, h1q⟩ := w.2.2.2.2.2.2.2.1 JSON plainEnv (lit "https://api.wusul.io")
    30000000000 ⟨lit "https://api.wusul.io/v1/access-passes", []⟩ none anyTarget
    (by decide) rfl
  obtain ⟨r2, h2, -, h2q⟩ := w.2.2.2.2.2.2.2.2 JSON plainEnv (lit "https://api.wusul.io")
    30000000000 ⟨lit "https://api.wusul.io/health", []⟩ none none anyTarget (by decide)
  rw [h1, h2]
  simp only [List.map_cons, List.map_nil, h1q, h2q, and_self]

end Wusul
